import Mathlib

/-!
# Verification of pico-wifi-settings core components

Shallow embedding of the settings-file parser, the flash update procedure,
the remote-control session state machine, the secret derivation, the UDP
discovery responder and the connection-manager state machine, together with
theorems that settle the specification claims about them.

Bytes are modelled as natural numbers (values 0..255 in all concrete uses);
machine words use explicit `% 2^32` arithmetic where overflow matters.
External cryptographic primitives (SHA-256, the raw AES block cipher) and
the random generator are parameters of the model, as they are outside the
specified core.
-/

namespace PicoWifiSettings

/-! ## Settings parser

Embedding of `wifi_settings_get_value_for_key_within_file`
(src/src/wifi_settings_flash_storage.c).  The parser scans the file byte by
byte; scanning ends at the first terminator byte (NUL, 0x1A, 0xFF) or at the
end of the file.
-/

/-- Terminator bytes: NUL, CP/M EOF (0x1A), flash padding (0xFF). -/
def isTermByte (b : Nat) : Bool := b == 0 || b == 26 || b == 255

/-- End-of-line bytes: LF, CR. -/
def isEolByte (b : Nat) : Bool := b == 10 || b == 13

/-- Parser state, mirroring `enum parse_state_t`.  The `keyS` state carries
the key suffix still to be matched (the C code tracks `key_index` instead;
`keyS rem` corresponds to `key_index = key.length - rem.length`). -/
inductive PState where
  | newLine : PState
  | keyS : List Nat → PState
  | separator : PState
  | value : PState
  | wait : PState
  deriving DecidableEq, Repr

/-- Result of running the parser over a chunk of input: an early successful
return (`found`), an early unsuccessful return at a terminator byte
(`stopped`), or the parser state and copied value bytes at the end of the
chunk (`cont`). -/
inductive RunRes where
  | found : List Nat → RunRes
  | stopped : RunRes
  | cont : PState → List Nat → RunRes
  deriving DecidableEq, Repr

/-- Matching one key character `b` against the expected suffix `rem`
(body of the `NEW_LINE` and `KEY` cases of the C switch: the first
character of `rem` is `key[key_index]`). -/
def stepKeyChar (b : Nat) (rem : List Nat) : PState :=
  match rem with
  | [] => .wait  -- unreachable: the remaining key suffix is never empty
  | r0 :: rrest =>
    if b = r0 then
      if rrest = [] then .separator else .keyS rrest
    else .wait

/-- One iteration of the scanning loop of
`wifi_settings_get_value_for_key_within_file` on byte `b`. -/
def stepByte (key : List Nat) (cap : Nat) (b : Nat) (st : PState)
    (acc : List Nat) : RunRes :=
  if isTermByte b then
    -- loop exit: EOF byte reached
    if st = .value then .found acc else .stopped
  else if isEolByte b then
    if st = .value then .found acc else .cont .newLine acc
  else
    match st with
    | .newLine => .cont (stepKeyChar b key) acc
    | .keyS rem => .cont (stepKeyChar b rem) acc
    | .separator => .cont (if b = 61 then .value else .wait) acc
    | .value =>
      if cap ≤ acc.length then .found acc
      else .cont .value (acc ++ [b])
    | .wait => .cont .wait acc

/-- The scanning loop of `wifi_settings_get_value_for_key_within_file`:
processes the given bytes from parser state `st` with value bytes `acc`
already copied.  `cap` is the caller-supplied value buffer capacity
(`*value_size` on entry). -/
def runAux (key : List Nat) (cap : Nat) :
    List Nat → PState → List Nat → RunRes
  | [], st, acc => .cont st acc
  | b :: rest, st, acc =>
    match stepByte key cap b st acc with
    | .found v => .found v
    | .stopped => .stopped
    | .cont st' acc' => runAux key cap rest st' acc'

/-- The return value of the C function: an early return yields the copied
value (`found`) or failure (`stopped`); reaching the end of the file while
parsing a value also yields the copied value, otherwise the key was not
found. -/
def finishRun : RunRes → Option (List Nat)
  | .found v => some v
  | .stopped => none
  | .cont st acc => if st = .value then some acc else none

/-- `wifi_settings_get_value_for_key_within_file`: looks up `key` in the
settings file `file`; returns the copied value bytes (at most `cap`) if the
key is found.  The list `file` holds exactly the `file_size` bytes of the
file region. -/
def lookupValue (key file : List Nat) (cap : Nat) : Option (List Nat) :=
  if key = [] then none
  else finishRun (runAux key cap file .newLine [])

/-- A clean byte is neither a terminator nor an end-of-line byte. -/
def isCleanByte (b : Nat) : Bool := !(isTermByte b) && !(isEolByte b)

/-! ## Flash update

Embedding of `wifi_settings_update_flash_unsafe`
(src/src/wifi_settings_flash_storage.c) over a model of the settings flash
region.  `pageSize` and `settingsSize` are the build-time parameters
`FLASH_PAGE_SIZE` and `WIFI_SETTINGS_FILE_SIZE`.  Following the unit-test
harness (`test_wifi_settings_flash_storage_update.c`), the model carries a
fault-injection site `errorAt`: one bit of the flash is flipped immediately
before the first verify whenever `errorAt` lies inside the region, which
models a silent programming failure. -/

/-- `PICO_OK` (pico/error.h). -/
def PICO_OK : Int := 0

/-- `PICO_ERROR_INVALID_DATA` (pico/error.h mock used by the unit tests). -/
def PICO_ERROR_INVALID_DATA : Int := -102

/-- `PICO_ERROR_INVALID_ARG` (pico/error.h mock used by the unit tests). -/
def PICO_ERROR_INVALID_ARG : Int := -103

/-- The state of the settings flash region plus operation counters and the
fault-injection site. -/
structure Flash where
  mem : List Nat
  erases : Nat
  programs : Nat
  verifies : Nat
  errorAt : Nat
  deriving DecidableEq, Repr

/-- Flip the lowest bit of the byte at the given index. -/
def flipAt : List Nat → Nat → List Nat
  | [], _ => []
  | b :: rest, 0 => (b ^^^ 1) :: rest
  | b :: rest, n + 1 => b :: flipAt rest n

/-- `flash_range_erase` over the whole settings region. -/
def flashEraseRegion (settingsSize : Nat) (f : Flash) : Flash :=
  { f with mem := List.replicate settingsSize 255, erases := f.erases + 1 }

/-- `flash_range_program` of one page at the given offset. -/
def flashProgramPage (offset : Nat) (page : List Nat) (f : Flash) : Flash :=
  { f with
      mem := f.mem.take offset ++ page ++ f.mem.drop (offset + page.length),
      programs := f.programs + 1 }

/-- The pending fault injection of the unit-test harness: if `errorAt` is
inside the region, flip one bit there and disarm the injection. -/
def injectFault (f : Flash) : Flash :=
  if f.errorAt < f.mem.length then
    { f with mem := flipAt f.mem f.errorAt, errorAt := f.mem.length }
  else f

/-- `wifi_settings_flash_range_verify`: byte comparison of the region
`[offset, offset + data.length)` against `data`, after the pending fault
injection (mirroring the unit-test mock). -/
def flashVerify (offset : Nat) (data : List Nat) (f : Flash) : Bool × Flash :=
  let f1 := { injectFault f with verifies := f.verifies + 1 }
  (((f1.mem.drop offset).take data.length) == data, f1)

/-- The `page_copy` buffer of one loop iteration of
`wifi_settings_update_flash_unsafe`: a full page copied from the file, or an
incomplete final page padded with `0xFF` (the remaining size is
`file.length - offset`). -/
def pageAt (pageSize : Nat) (file : List Nat) (offset : Nat) : List Nat :=
  if pageSize ≤ file.length - offset then (file.drop offset).take pageSize
  else file.drop offset ++
    List.replicate (pageSize - (file.length - offset)) 255

/-- The page-programming loop of `wifi_settings_update_flash_unsafe`:
`for (offset = 0; offset < file_size; offset += FLASH_PAGE_SIZE)`. -/
def programPages (pageSize : Nat) (hp : 0 < pageSize) (file : List Nat)
    (offset : Nat) (f : Flash) : Flash :=
  if _h : offset < file.length then
    programPages pageSize hp file (offset + pageSize)
      (flashProgramPage offset (pageAt pageSize file offset) f)
  else f
termination_by file.length - offset
decreasing_by simp_wf; omega

/-- Outcome of the terminator-byte verify (the inner `if` of the test-copy
step of `wifi_settings_update_flash_unsafe`). -/
def finishSecondVerify (r2 : Bool × Flash) : Int × Flash :=
  if r2.fst then (PICO_OK, r2.snd) else (PICO_ERROR_INVALID_DATA, r2.snd)

/-- Outcome of the test-copy step of `wifi_settings_update_flash_unsafe`:
after the verify of the written bytes, a file shorter than the region also
has the byte after it checked against `0xFF`. -/
def finishFirstVerify (settingsSize : Nat) (file : List Nat)
    (r1 : Bool × Flash) : Int × Flash :=
  if r1.fst then
    if file.length < settingsSize then
      finishSecondVerify (flashVerify file.length [255] r1.snd)
    else (PICO_OK, r1.snd)
  else (PICO_ERROR_INVALID_DATA, r1.snd)

/-- `wifi_settings_update_flash_unsafe`: size check, erase, page-by-page
program, verify of the written bytes, and (for a short file) verify of the
`0xFF` terminator byte after the file. -/
def updateFlashUnsafe (pageSize : Nat) (hp : 0 < pageSize)
    (settingsSize : Nat) (file : List Nat) (f : Flash) : Int × Flash :=
  if settingsSize < file.length then (PICO_ERROR_INVALID_ARG, f)
  else
    finishFirstVerify settingsSize file
      (flashVerify 0 file
        (programPages pageSize hp file 0 (flashEraseRegion settingsSize f)))

/-- The padded image that `wifi_settings_update_flash_unsafe` writes: the
file followed by `0xFF` bytes up to the size of the region. -/
def paddedImage (settingsSize : Nat) (file : List Nat) : List Nat :=
  file ++ List.replicate (settingsSize - file.length) 255

/-! ## Remote control service

Embedding of the remote update service (`wifi_settings_remote.c`, included
verbatim in test/connect/deploy.sh): the per-connection session state
machine, block crypto framing, the handler registry and the secret
derivation.  The cryptographic primitives (SHA-256 and the raw AES-256
block cipher from mbedtls) and the random generator are environment
parameters. -/

/-- External primitives: SHA-256, the raw AES-256 block cipher under a
given key (encrypt and decrypt directions), and the 16 random bytes
produced by `get_rand_128` for the server challenge. -/
structure Env where
  sha256 : List Nat → List Nat
  aesEncRaw : List Nat → List Nat → List Nat
  aesDecRaw : List Nat → List Nat → List Nat
  rand : List Nat

/-- Bytewise XOR of two byte lists. -/
def zipXor (a b : List Nat) : List Nat :=
  List.zipWith (fun x y => x ^^^ y) a b

def ID_GREETING : Nat := 70

def ID_REQUEST : Nat := 71

def ID_CHALLENGE : Nat := 72

def ID_AUTHENTICATION : Nat := 73

def ID_RESPONSE : Nat := 74

def ID_ACKNOWLEDGE : Nat := 75

def ID_OK : Nat := 76

def ID_AUTH_ERROR : Nat := 77

def ID_BAD_MSG_ERROR : Nat := 79

def ID_BAD_PARAM_ERROR : Nat := 80

def ID_BAD_HANDLER_ERROR : Nat := 81

def ID_NO_SECRET_ERROR : Nat := 82

def ID_CORRUPT_ERROR : Nat := 83

def CHALLENGE_SIZE : Nat := 15

def AUTHENTICATION_SIZE : Nat := 15

def HMAC_DIGEST_SIZE : Nat := 32

def HMAC_BLOCK_SIZE : Nat := 64

def AES_BLOCK_SIZE : Nat := 16

def AES_KEY_SIZE : Nat := 32

def DATA_HASH_SIZE : Nat := 7

def MAX_DATA_SIZE : Nat := 4096

def ID_FIRST_HANDLER : Nat := 120

def NUM_HANDLERS : Nat := 24

/-- Session states, mirroring `enum receive_state_t`. -/
inductive RState where
  | sendGreeting : RState
  | expectRequest : RState
  | sendChallenge : RState
  | expectAuthentication : RState
  | sendAuthentication : RState
  | expectAcknowledge : RState
  | sendBadMsgError : RState
  | sendAuthError : RState
  | sendNoSecretError : RState
  | expectEncRequestHeader : RState
  | expectEncRequestPayload : RState
  | sendEncReplyHeader : RState
  | sendEncReplyPayload : RState
  | sendCorruptError : RState
  | sendBadParamError : RState
  | sendBadHandlerError : RState
  | sendEncReplyHeaderWithCallback2 : RState
  | executeCallback2 : RState
  | disconnect : RState
  deriving DecidableEq, Repr

/-- `enc_message_header_t`: a 16-byte header with `data_size` (u32),
`parameter_or_result` (i32), `msg_type` (u8) and a 7-byte truncated hash. -/
structure EncHeader where
  dataSize : Nat
  paramOrResult : Int
  msgType : Nat
  dataHash : List Nat
  deriving DecidableEq, Repr

/-- Little-endian 4-byte encoding of a 32-bit value. -/
def le4 (n : Nat) : List Nat :=
  [n % 256, n / 256 % 256, n / 65536 % 256, n / 16777216 % 256]

/-- Little-endian 4-byte two's-complement encoding of an i32. -/
def i32le (x : Int) : List Nat := le4 (x % 4294967296).toNat

/-- Little-endian 4-byte decoding. -/
def de4 (l : List Nat) : Nat :=
  l.getD 0 0 + 256 * l.getD 1 0 + 65536 * l.getD 2 0 + 16777216 * l.getD 3 0

/-- Little-endian 4-byte two's-complement decoding of an i32. -/
def deI32 (l : List Nat) : Int :=
  if de4 l < 2147483648 then (de4 l : Int) else (de4 l : Int) - 4294967296

/-- The first 9 bytes of the header, as hashed by
`generate_enc_data_hash` (`AES_BLOCK_SIZE - DATA_HASH_SIZE` bytes). -/
def serializeHeader9 (h : EncHeader) : List Nat :=
  le4 h.dataSize ++ i32le h.paramOrResult ++ [h.msgType]

/-- All 16 bytes of the header as encrypted on the wire. -/
def serializeHeader16 (h : EncHeader) : List Nat :=
  serializeHeader9 h ++ h.dataHash

/-- Reading a decrypted 16-byte block as an `enc_message_header_t`. -/
def parseHeader (pt : List Nat) : EncHeader :=
  { dataSize := de4 (pt.take 4),
    paramOrResult := deI32 ((pt.drop 4).take 4),
    msgType := pt.getD 8 0,
    dataHash := (pt.drop 9).take 7 }

/-- A stage-1 handler (`handler_callback1_t`): from the message type, the
session data buffer, the request data size and the request parameter it
produces the updated buffer, the reply data size and the `int32` result. -/
def Handler1 : Type := Nat → List Nat → Nat → Int → (List Nat × Nat × Int)

/-- One entry of `g_handler_table`; the stage-2 callback is modelled by its
presence, its invocation being recorded as an event. -/
structure HEntry where
  callback1 : Option Handler1
  callback2 : Bool

/-- `g_handler_table`, indexed by `msg_type - ID_FIRST_HANDLER`. -/
def HTable : Type := Nat → HEntry

/-- `uint8_t handler_id = msg_type - ID_FIRST_HANDLER` (8-bit wraparound). -/
def handlerIdOf (msgType : Nat) : Nat := (msgType + 256 - ID_FIRST_HANDLER) % 256

/-- The registration check of `handle_enc_request_start` /
`handle_enc_request_end`: the id is in range and at least one callback is
installed. -/
def handlerRegistered (tbl : HTable) (hid : Nat) : Bool :=
  decide (hid < NUM_HANDLERS) &&
    ((tbl hid).callback1.isSome || (tbl hid).callback2)

/-- The globals of the remote service consulted by a session:
`g_secret_hashed`, `g_secret_valid` and `g_handler_table`. -/
structure Globals where
  secretHashed : List Nat
  secretValid : Bool
  table : HTable

/-- `session_t` (network handles omitted; the one-block output buffer is
`outputBlock`, the 16-byte input assembly buffer is `inputBlock`). -/
structure Session where
  data : List Nat
  clientChallenge : List Nat
  serverChallenge : List Nat
  outputBlock : List Nat
  inputBlock : List Nat
  decryptIv : List Nat
  encryptIv : List Nat
  encKey : List Nat
  decKey : List Nat
  replyHeader : EncHeader
  requestHeader : EncHeader
  state : RState
  dataIndex : Nat

/-- `generate_authentication`: HMAC-SHA-256 keyed by the 32-byte hashed
secret over `client_challenge || server_challenge || append_code`,
truncated to `outSize` bytes.  The two hash rounds and the in-place
`k_pad` rewriting mirror the C code. -/
def generateAuthentication (env : Env) (secretHashed cc sc code : List Nat)
    (outSize : Nat) : List Nat :=
  let kpad := secretHashed.map (fun b => b ^^^ 54) ++
    List.replicate (HMAC_BLOCK_SIZE - HMAC_DIGEST_SIZE) 54
  let digest1 := env.sha256 (kpad ++ cc ++ sc ++ code)
  let kpad2 := kpad.map (fun b => b ^^^ (92 ^^^ 54))
  (env.sha256 (kpad2 ++ digest1)).take outSize

/-- Modelled from the spec: standard HMAC-SHA-256 with a 64-byte block,
`ipad = 0x36` and `opad = 0x5C`, for a 32-byte key (zero-padded to the
block size). -/
def specHmacSha256 (sha : List Nat → List Nat) (key msg : List Nat) :
    List Nat :=
  let ipadKey := key.map (fun b => b ^^^ 54) ++
    List.replicate (HMAC_BLOCK_SIZE - HMAC_DIGEST_SIZE) 54
  let opadKey := key.map (fun b => b ^^^ 92) ++
    List.replicate (HMAC_BLOCK_SIZE - HMAC_DIGEST_SIZE) 92
  sha (opadKey ++ sha (ipadKey ++ msg))

/-- `encrypt_block`: AES-256-CBC encryption of one 16-byte block into the
session's output block, chaining the encryption IV. -/
def encryptBlock (env : Env) (s : Session) (src : List Nat) : Session :=
  let ct := env.aesEncRaw s.encKey (zipXor s.encryptIv src)
  { s with outputBlock := ct, encryptIv := ct }

/-- `decrypt_block`: AES-256-CBC decryption of the session's input block,
chaining the decryption IV. -/
def decryptBlock (env : Env) (s : Session) : List Nat × Session :=
  let pt := zipXor s.decryptIv (env.aesDecRaw s.decKey s.inputBlock)
  (pt, { s with decryptIv := s.inputBlock })

/-- `generate_keys`: derive the two session AES-256 keys with append codes
`"SK"` and `"CK"` and zero both IVs. -/
def generateKeys (env : Env) (g : Globals) (s : Session) : Session :=
  { s with
      encKey := generateAuthentication env g.secretHashed s.clientChallenge
        s.serverChallenge [83, 75] AES_KEY_SIZE,
      encryptIv := List.replicate AES_BLOCK_SIZE 0,
      decKey := generateAuthentication env g.secretHashed s.clientChallenge
        s.serverChallenge [67, 75] AES_KEY_SIZE,
      decryptIv := List.replicate AES_BLOCK_SIZE 0 }

/-- `generate_enc_data_hash`: SHA-256 over the first 9 header bytes and
the first `data_size` payload bytes, truncated to 7 bytes. -/
def encDataHash (env : Env) (h : EncHeader) (data : List Nat) : List Nat :=
  (env.sha256 (serializeHeader9 h ++ data.take h.dataSize)).take
    DATA_HASH_SIZE

/-- `generate_enc_header_for_error`: zeroed reply header carrying the error
id, hashed, encrypted into the output block; the session will disconnect. -/
def generateEncHeaderForError (env : Env) (s : Session) (msgType : Nat) :
    Session :=
  let rh0 : EncHeader :=
    { dataSize := 0, paramOrResult := 0, msgType := msgType,
      dataHash := List.replicate DATA_HASH_SIZE 0 }
  let rh := { rh0 with dataHash := encDataHash env rh0 s.data }
  let s2 := encryptBlock env { s with replyHeader := rh }
    (serializeHeader16 rh)
  { s2 with state := .disconnect }

/-- `generate_clear_header_for_error`: a cleartext block with the error id
in byte 0 and zero padding; the session will disconnect. -/
def generateClearHeaderForError (s : Session) (msgType : Nat) : Session :=
  { s with
      outputBlock := msgType :: List.replicate 15 0,
      state := .disconnect }

/-- Writing a run of bytes into the data buffer at a byte offset. -/
def writeBytesAt (l : List Nat) (offset : Nat) (bytes : List Nat) :
    List Nat :=
  l.take offset ++ bytes ++ l.drop (offset + bytes.length)

/-- The tail of `handle_enc_request_end` after the stage-1 handler has
produced (or passed through) the reply buffer, size and result: prepare the
reply header and select the next state depending on the presence of a
stage-2 callback. -/
def finishDispatch (env : Env) (g : Globals) (s : Session)
    (newData : List Nat) (replySize : Nat) (result : Int) : Session :=
  let hid := handlerIdOf s.requestHeader.msgType
  let s1 :=
    { s with
        data := newData, dataIndex := 0,
        replyHeader := { s.replyHeader with paramOrResult := result } }
  if (g.table hid).callback2 then
    let s2 :=
      { s1 with
          requestHeader :=
            { s1.requestHeader with
                dataSize := replySize, paramOrResult := result },
          state := .sendEncReplyHeaderWithCallback2 }
    { s2 with
        replyHeader :=
          { s2.replyHeader with
              dataHash := encDataHash env s2.replyHeader s2.data } }
  else
    let s2 :=
      { s1 with
          replyHeader := { s1.replyHeader with dataSize := replySize },
          state := .sendEncReplyHeader }
    { s2 with
        replyHeader :=
          { s2.replyHeader with
              dataHash := encDataHash env s2.replyHeader s2.data } }

/-- `handle_enc_request_end`: verify the request's truncated data hash,
re-check the handler, call the stage-1 callback if present (capping the
reply size it returns), and prepare the reply. -/
def handleEncRequestEnd (env : Env) (g : Globals) (s : Session) : Session :=
  if encDataHash env s.requestHeader s.data ≠ s.requestHeader.dataHash then
    { s with state := .sendCorruptError }
  else
    let hid := handlerIdOf s.requestHeader.msgType
    let s0 :=
      { s with
          replyHeader :=
            { dataSize := 0, paramOrResult := 0, msgType := ID_OK,
              dataHash := List.replicate DATA_HASH_SIZE 0 } }
    if handlerRegistered g.table hid = false then
      { s0 with state := .sendBadHandlerError }
    else
      match (g.table hid).callback1 with
      | some f1 =>
        let out := f1 s.requestHeader.msgType s.data s.requestHeader.dataSize
          s.requestHeader.paramOrResult
        finishDispatch env g s0 out.1
          (if MAX_DATA_SIZE < out.2.1 then MAX_DATA_SIZE else out.2.1)
          out.2.2
      | none =>
        finishDispatch env g s0 s.data s.requestHeader.dataSize
          s.requestHeader.paramOrResult

/-- `handle_enc_request_start`: decrypt the request header, check the
handler id and the data size, then receive the payload or dispatch
directly. -/
def handleEncRequestStart (env : Env) (g : Globals) (s : Session) :
    Session :=
  let pr := decryptBlock env s
  let s1 : Session := { pr.2 with requestHeader := parseHeader pr.1 }
  if handlerRegistered g.table
      (handlerIdOf s1.requestHeader.msgType) = false then
    { s1 with state := .sendBadHandlerError }
  else if MAX_DATA_SIZE < s1.requestHeader.dataSize then
    { s1 with state := .sendBadParamError }
  else
    let s2 := { s1 with dataIndex := 0 }
    if s2.requestHeader.dataSize = 0 then handleEncRequestEnd env g s2
    else { s2 with state := .expectEncRequestPayload }

/-- `handle_enc_request_add_data`: decrypt one payload block into the data
buffer; dispatch once the whole payload has arrived. -/
def handleEncRequestAddData (env : Env) (g : Globals) (s : Session) :
    Session :=
  let pr := decryptBlock env s
  let s1 : Session :=
    { pr.2 with
        data := writeBytesAt pr.2.data s.dataIndex pr.1,
        dataIndex := s.dataIndex + AES_BLOCK_SIZE }
  if s1.requestHeader.dataSize ≤ s1.dataIndex then
    handleEncRequestEnd env g s1
  else s1

/-- `handle_input_block`: consume the 16-byte input block according to the
session state; `false` means the state cannot accept input now. -/
def handleInputBlock (env : Env) (g : Globals) (s : Session) :
    Bool × Session :=
  match s.state with
  | .sendGreeting => (false, s)
  | .expectRequest =>
    if s.inputBlock.getD 0 0 ≠ ID_REQUEST then
      (true, { s with state := .sendBadMsgError })
    else if !g.secretValid then
      (true, { s with state := .sendNoSecretError })
    else
      (true, { s with
        clientChallenge := (s.inputBlock.drop 1).take CHALLENGE_SIZE,
        state := .sendChallenge })
  | .sendChallenge => (false, s)
  | .expectAuthentication =>
    if s.inputBlock.getD 0 0 ≠ ID_AUTHENTICATION then
      (true, { s with state := .sendBadMsgError })
    else if generateAuthentication env g.secretHashed s.clientChallenge
        s.serverChallenge [67, 65] AUTHENTICATION_SIZE ≠
        (s.inputBlock.drop 1).take AUTHENTICATION_SIZE then
      (true, { s with state := .sendAuthError })
    else (true, { s with state := .sendAuthentication })
  | .sendAuthentication => (false, s)
  | .expectAcknowledge =>
    if s.inputBlock.getD 0 0 ≠ ID_ACKNOWLEDGE then
      (true, { s with state := .sendBadMsgError })
    else
      (true, generateKeys env g { s with state := .expectEncRequestHeader })
  | .sendBadMsgError => (false, s)
  | .sendBadParamError => (false, s)
  | .sendBadHandlerError => (false, s)
  | .sendAuthError => (false, s)
  | .sendNoSecretError => (false, s)
  | .sendCorruptError => (false, s)
  | .expectEncRequestHeader => (true, handleEncRequestStart env g s)
  | .executeCallback2 => (false, s)
  | .expectEncRequestPayload => (true, handleEncRequestAddData env g s)
  | .sendEncReplyHeader => (false, s)
  | .sendEncReplyPayload => (false, s)
  | .sendEncReplyHeaderWithCallback2 => (false, s)
  | .disconnect => (false, s)

/-- `generate_output_block`: produce the next outbound 16-byte block if the
session state has one; `false` means there is nothing to send. -/
def generateOutputBlock (env : Env) (g : Globals) (s : Session) :
    Bool × Session :=
  match s.state with
  | .sendGreeting =>
    let s1 := { s with
      outputBlock := (s.data.drop s.dataIndex).take AES_BLOCK_SIZE,
      dataIndex := s.dataIndex + AES_BLOCK_SIZE }
    (true, if s1.replyHeader.dataSize ≤ s1.dataIndex then
      { s1 with state := .expectRequest } else s1)
  | .expectRequest => (false, s)
  | .sendChallenge =>
    (true, { s with
      outputBlock := ID_CHALLENGE :: env.rand.take CHALLENGE_SIZE,
      serverChallenge := env.rand.take CHALLENGE_SIZE,
      state := .expectAuthentication })
  | .expectAuthentication => (false, s)
  | .sendAuthentication =>
    (true, { s with
      outputBlock := ID_RESPONSE :: generateAuthentication env
        g.secretHashed s.clientChallenge s.serverChallenge [83, 65]
        AUTHENTICATION_SIZE,
      state := .expectAcknowledge })
  | .expectAcknowledge => (false, s)
  | .sendBadMsgError => (true, generateClearHeaderForError s ID_BAD_MSG_ERROR)
  | .sendAuthError => (true, generateClearHeaderForError s ID_AUTH_ERROR)
  | .sendNoSecretError =>
    (true, generateClearHeaderForError s ID_NO_SECRET_ERROR)
  | .sendCorruptError =>
    (true, generateEncHeaderForError env s ID_CORRUPT_ERROR)
  | .sendBadParamError =>
    (true, generateEncHeaderForError env s ID_BAD_PARAM_ERROR)
  | .sendBadHandlerError =>
    (true, generateEncHeaderForError env s ID_BAD_HANDLER_ERROR)
  | .expectEncRequestHeader => (false, s)
  | .expectEncRequestPayload => (false, s)
  | .sendEncReplyHeader =>
    let s1 := encryptBlock env s (serializeHeader16 s.replyHeader)
    (true, if s1.replyHeader.dataSize = 0 then
      { s1 with state := .expectEncRequestHeader }
    else { s1 with state := .sendEncReplyPayload })
  | .sendEncReplyPayload =>
    let s1 := encryptBlock env s ((s.data.drop s.dataIndex).take
      AES_BLOCK_SIZE)
    let s2 := { s1 with dataIndex := s1.dataIndex + AES_BLOCK_SIZE }
    (true, if s2.replyHeader.dataSize ≤ s2.dataIndex then
      { s2 with state := .expectEncRequestHeader } else s2)
  | .sendEncReplyHeaderWithCallback2 =>
    (true, { encryptBlock env s (serializeHeader16 s.replyHeader) with
      state := .executeCallback2 })
  | .executeCallback2 => (false, s)
  | .disconnect => (false, s)

/-- Observable actions of the server towards the transport and the
handlers. -/
inductive Event where
  | sentBlock : List Nat → Event
  | closedConn : Event
  | invoke2 : Nat → List Nat → Nat → Int → Event
  deriving DecidableEq, Repr

/-- `send_while_able` over an ideal transport that accepts every block:
generate and send blocks until the session has nothing more to send.  The
fuel bounds the number of blocks. -/
def sendWhileAble (env : Env) (g : Globals) :
    Nat → Session → List (List Nat) × Session
  | 0, s => ([], s)
  | fuel + 1, s =>
    let p := generateOutputBlock env g s
    if p.fst then
      let q := sendWhileAble env g fuel p.snd
      (p.snd.outputBlock :: q.fst, q.snd)
    else ([], p.snd)

/-- `server_sent`: after sending whatever can be sent, a session in
`EXECUTE_CALLBACK2` closes the connection and then invokes the stage-2
callback with the request header's (updated) size and parameter; a session
in `DISCONNECT` closes the connection. -/
def serverSentEvents (env : Env) (g : Globals) (fuel : Nat) (s : Session) :
    List Event :=
  let p := sendWhileAble env g fuel s
  let evs := p.fst.map Event.sentBlock
  if p.snd.state = .executeCallback2 then
    evs ++ [Event.closedConn] ++
      (if decide (handlerIdOf p.snd.requestHeader.msgType < NUM_HANDLERS) &&
          (g.table (handlerIdOf p.snd.requestHeader.msgType)).callback2 then
        [Event.invoke2 p.snd.requestHeader.msgType p.snd.data
          p.snd.requestHeader.dataSize p.snd.requestHeader.paramOrResult]
      else [])
  else if p.snd.state = .disconnect then evs ++ [Event.closedConn]
  else evs

/-- One round of `wifi_settings_remote_update_secret`'s stretching loop,
iterated: each round hashes the previous 32-byte state concatenated with
the raw secret, starting from the all-zero state. -/
def stretchRounds (sha : List Nat → List Nat) (secret : List Nat) :
    Nat → List Nat
  | 0 => List.replicate HMAC_DIGEST_SIZE 0
  | n + 1 => sha (stretchRounds sha secret n ++ secret)

/-- `wifi_settings_remote_update_secret`: the hashed secret is zeroed;
if `update_secret` is found and nonempty, 4096 stretching rounds produce
the hashed key and the secret becomes valid. -/
def updateSecretGlobals (sha : List Nat → List Nat)
    (lookupResult : Option (List Nat)) : Bool × List Nat :=
  match lookupResult with
  | some secret =>
    if 0 < secret.length then (true, stretchRounds sha secret 4096)
    else (false, List.replicate HMAC_DIGEST_SIZE 0)
  | none => (false, List.replicate HMAC_DIGEST_SIZE 0)

/-- The derivation described by the spec: 4096 iterations of SHA-256,
each round hashing the previous 32-byte output concatenated with the raw
secret bytes, starting from a 32-byte all-zero state. -/
def specStretchedKey (sha : List Nat → List Nat) (secret : List Nat) :
    List Nat :=
  (fun h => sha (h ++ secret))^[4096] (List.replicate 32 0)

/-! ## Concrete instances used by the witnesses -/

/-- A degenerate SHA-256 returning a fixed 32-byte digest, for concrete
evaluation. -/
def wSha : List Nat → List Nat := fun _ => List.replicate 32 0

/-- Concrete environment: constant hash, identity block cipher, zero
randomness. -/
def wEnv : Env :=
  { sha256 := wSha, aesEncRaw := fun _ b => b, aesDecRaw := fun _ b => b,
    rand := List.replicate 16 0 }

/-- An all-zero header. -/
def zeroHeader : EncHeader :=
  { dataSize := 0, paramOrResult := 0, msgType := 0,
    dataHash := List.replicate 7 0 }

/-- A blank session. -/
def baseSession : Session :=
  { data := [], clientChallenge := [], serverChallenge := [],
    outputBlock := [], inputBlock := [], decryptIv := List.replicate 16 0,
    encryptIv := List.replicate 16 0, encKey := [], decKey := [],
    replyHeader := zeroHeader, requestHeader := zeroHeader,
    state := RState.sendGreeting, dataIndex := 0 }

/-- A concrete stage-1 handler: keeps the buffer, reports size 3 and
result 7. -/
def wHandler1 : Handler1 := fun _ data _ _ => (data, 3, 7)

/-- A concrete handler table: id 0 has both stages, id 1 is stage-2 only,
the rest are unregistered. -/
def wTable : HTable := fun hid =>
  if hid = 0 then { callback1 := some wHandler1, callback2 := true }
  else if hid = 1 then { callback1 := none, callback2 := true }
  else { callback1 := none, callback2 := false }

/-- Concrete globals with a valid secret. -/
def wG : Globals :=
  { secretHashed := List.replicate 32 0, secretValid := true,
    table := wTable }

/-- Concrete globals with no valid secret. -/
def wGns : Globals :=
  { secretHashed := List.replicate 32 0, secretValid := false,
    table := wTable }

/-- Concrete session used by the C4 witness. -/
def wS4 : Session :=
  { baseSession with
      state := RState.expectRequest,
      inputBlock := 71 :: List.replicate 15 0 }

/-- Concrete sessions used by the C5 witness: a mismatching and a
matching client authentication block. -/
def wS5a : Session :=
  { baseSession with
      state := RState.expectAuthentication,
      inputBlock := 73 :: List.replicate 15 1 }

def wS5b : Session :=
  { baseSession with
      state := RState.expectAuthentication,
      inputBlock := 73 :: List.replicate 15 0 }

/-! ## C6: encrypted request validation -/

/-- The session emits exactly one encrypted error header: a zeroed header
carrying `errId`, hashed, CBC-encrypted into the output block, and the
session will disconnect. -/
def emitsEncErrorHeader (env : Env) (g : Globals) (s' : Session)
    (errId : Nat) : Prop :=
  (generateOutputBlock env g s').1 = true ∧
  (generateOutputBlock env g s').2.replyHeader.msgType = errId ∧
  (generateOutputBlock env g s').2.replyHeader.dataSize = 0 ∧
  (generateOutputBlock env g s').2.outputBlock =
    env.aesEncRaw s'.encKey (zipXor s'.encryptIv
      (serializeHeader16 (generateOutputBlock env g s').2.replyHeader)) ∧
  (generateOutputBlock env g s').2.state = RState.disconnect

/-- Concrete sessions used by the C6 witness: an unregistered request
header, an oversized registered request header, and a corrupted request
at dispatch. -/
def wS6a : Session :=
  { baseSession with inputBlock := List.replicate 16 0 }

def wS6b : Session :=
  { baseSession with
      inputBlock :=
        [136, 19, 0, 0, 0, 0, 0, 0, 120, 0, 0, 0, 0, 0, 0, 0] }

def wS6u : Session :=
  { baseSession with
      requestHeader := { zeroHeader with dataHash := List.replicate 7 1 } }

/-- Concrete session used by the C7 witness and counterexample: a valid
request for message type 120 with an empty payload. -/
def wS7 : Session :=
  { baseSession with
      requestHeader :=
        { dataSize := 0, paramOrResult := 5, msgType := 120,
          dataHash := List.replicate 7 0 } }

/-- Concrete session used by the C10 witness: an empty-payload request
for message type 121, which has only a stage-2 handler. -/
def wS10 : Session :=
  { baseSession with
      requestHeader :=
        { dataSize := 0, paramOrResult := 9, msgType := 121,
          dataHash := List.replicate 7 0 } }

/-! ## C9: discovery responder -/

/-- `RESPONDER_REQUEST_MAGIC`, the bytes of `"PWS?"`. -/
def RESPONDER_REQUEST_MAGIC : List Nat := [80, 87, 83, 63]

/-- `RESPONDER_REPLY_MAGIC`, the bytes of `"PWS:"`. -/
def RESPONDER_REPLY_MAGIC : List Nat := [80, 87, 83, 58]

/-- `strstr`: the needle occurs contiguously inside the haystack. -/
def isSubstring (needle haystack : List Nat) : Bool :=
  (List.range (haystack.length + 1)).any
    (fun i => (haystack.drop i).take needle.length == needle)

/-- `responder_recv`: the datagram is copied into a zeroed 21-byte packet
(4 magic bytes and a 17-byte board-id field whose last byte is forced to
NUL); if the magic is `"PWS?"` and the NUL-terminated query is a substring
of the local board id, the reply `"PWS:"` plus the full board id and a NUL
is sent back; otherwise nothing is sent. -/
def responderRecv (myBoardIdHex payload : List Nat) :
    Option (List Nat) :=
  let mp := payload.take 21 ++ List.replicate (21 - payload.length) 0
  if mp.take 4 ≠ RESPONDER_REQUEST_MAGIC then none
  else
    let query := ((mp.drop 4).take 16).takeWhile (fun b => !(b == 0))
    if isSubstring query myBoardIdHex then
      some (RESPONDER_REPLY_MAGIC ++ myBoardIdHex.take 16 ++ [0])
    else none

/-- Concrete inputs for the C9 witness: the board id `"0123456789ABCDEF"`,
the query `"456"`, and a non-magic datagram. -/
def wBoard : List Nat :=
  [48, 49, 50, 51, 52, 53, 54, 55, 56, 57, 65, 66, 67, 68, 69, 70]

def wPfx : List Nat := [52, 53, 54]

def wPayload2 : List Nat := [1, 2, 3, 4]

/-! ## C8: Connection Manager slot selection -/

/-- Modelled from the spec: the slot statuses of the Connection
Manager. -/
inductive SlotStatus where
  | notFound : SlotStatus
  | found : SlotStatus
  | attempt : SlotStatus
  | failed : SlotStatus
  | badauth : SlotStatus
  | timeout : SlotStatus
  | success : SlotStatus
  | lost : SlotStatus
  deriving DecidableEq, Repr

/-- Modelled from the spec: the Connection Manager states involved in
slot selection. -/
inductive CMState where
  | tryToConnect : CMState
  | scanning : CMState
  | connecting : CMState
  | connectedIp : CMState
  deriving DecidableEq, Repr

/-- Modelled from the spec: the connection context fields used for slot
selection. -/
structure WifiState where
  cstate : CMState
  selectedSlot : Nat
  slotStatus : List SlotStatus
  deriving DecidableEq, Repr

/-- Modelled from the spec: choose the smallest slot index whose status
is `FOUND`. -/
def selectFound : List SlotStatus → Option Nat
  | [] => none
  | st :: rest =>
    if st = SlotStatus.found then some 0
    else (selectFound rest).map (fun i => i + 1)

/-- Modelled from the spec: on leaving `SCANNING` with the scan complete,
pick the minimal `FOUND` slot, mark it `ATTEMPT` and begin the join; with
no `FOUND` slot left, return to `TRY_TO_CONNECT` with slot 0 selected. -/
def scanDoneStep (w : WifiState) : WifiState :=
  match selectFound w.slotStatus with
  | some i =>
    { cstate := CMState.connecting, selectedSlot := i,
      slotStatus := w.slotStatus.set i SlotStatus.attempt }
  | none =>
    { cstate := CMState.tryToConnect, selectedSlot := 0,
      slotStatus := w.slotStatus }

/-- Modelled from the spec: a failed join marks the selected slot with
the failure status and returns to `SCANNING`. -/
def joinFailStep (w : WifiState) (outcome : SlotStatus) : WifiState :=
  { cstate := CMState.scanning, selectedSlot := w.selectedSlot,
    slotStatus := w.slotStatus.set w.selectedSlot outcome }

/-- Concrete states for the C8 witness. -/
def wW : WifiState :=
  { cstate := CMState.scanning, selectedSlot := 0,
    slotStatus :=
      [SlotStatus.notFound, SlotStatus.found, SlotStatus.found] }

def wW2 : WifiState :=
  { cstate := CMState.scanning, selectedSlot := 1,
    slotStatus := [SlotStatus.failed, SlotStatus.notFound] }

/-! ### Parser lemmas -/

theorem runAux_append (key : List Nat) (cap : Nat) (l1 l2 : List Nat)
    (st : PState) (acc : List Nat) :
    runAux key cap (l1 ++ l2) st acc =
      match runAux key cap l1 st acc with
      | .found v => .found v
      | .stopped => .stopped
      | .cont st' acc' => runAux key cap l2 st' acc' := by
  induction l1 generalizing st acc with
  | nil => simp [runAux]
  | cons b rest ih =>
    simp only [List.cons_append, runAux]
    cases stepByte key cap b st acc with
    | found v => rfl
    | stopped => rfl
    | cont st' acc' => exact ih st' acc'

/-- A byte that is not a terminator can never make the step stop
unsuccessfully. -/
theorem stepByte_no_stop (key : List Nat) (cap b : Nat) (st : PState)
    (acc : List Nat) (hb : isTermByte b = false) :
    stepByte key cap b st acc ≠ .stopped := by
  cases st <;>
    simp only [stepByte, hb, Bool.false_eq_true, if_false] <;>
    by_cases heol : isEolByte b <;>
    simp only [heol, if_true, Bool.false_eq_true, if_false, reduceCtorEq,
      eq_self_iff_true, ite_true, ite_false] <;>
    first
      | (split <;> simp)
      | simp

/-- The one-byte step only accumulates value bytes in the `value` state. -/
theorem stepByte_cont_inv (key : List Nat) (cap b : Nat) (st : PState)
    (acc : List Nat) (hinv : st = .value ∨ acc = []) (st' : PState)
    (acc' : List Nat) (hs : stepByte key cap b st acc = .cont st' acc') :
    st' = .value ∨ acc' = [] := by
  by_cases hterm : isTermByte b <;>
    by_cases heol : isEolByte b <;>
    cases st <;>
    simp only [stepByte, hterm, heol, if_true, Bool.false_eq_true, if_false,
      reduceCtorEq, eq_self_iff_true, ite_true, ite_false,
      RunRes.cont.injEq] at hs <;>
    first
      | exact Or.inr (hs.2 ▸ hinv.resolve_left (by simp))
      | ( -- remaining: the `value` state with the capacity test
         split at hs
         all_goals cases hs
         all_goals exact Or.inl rfl)

/-- A chunk free of terminator bytes can never make the parser stop
unsuccessfully. -/
theorem runAux_no_stop (key : List Nat) (cap : Nat) (l : List Nat)
    (st : PState) (acc : List Nat)
    (hclean : ∀ b ∈ l, isTermByte b = false) :
    runAux key cap l st acc ≠ .stopped := by
  induction l generalizing st acc with
  | nil => simp [runAux]
  | cons b rest ih =>
    have hb : isTermByte b = false := hclean b (by simp)
    have hrest : ∀ x ∈ rest, isTermByte x = false :=
      fun x hx => hclean x (by simp [hx])
    simp only [runAux]
    cases hs : stepByte key cap b st acc with
    | found v => simp
    | stopped => exact absurd hs (stepByte_no_stop key cap b st acc hb)
    | cont st' acc' => exact ih st' acc' hrest

/-- Value bytes are only accumulated in the `value` state: whenever the
parser continues in a non-`value` state, no value bytes have been copied
since the last return. -/
theorem runAux_acc_inv (key : List Nat) (cap : Nat) (l : List Nat)
    (st : PState) (acc : List Nat)
    (hinv : st = .value ∨ acc = []) :
    ∀ st' acc', runAux key cap l st acc = .cont st' acc' →
      (st' = .value ∨ acc' = []) := by
  induction l generalizing st acc with
  | nil =>
    intro st' acc' h
    simp only [runAux, RunRes.cont.injEq] at h
    exact h.1 ▸ h.2 ▸ hinv
  | cons b rest ih =>
    intro st' acc' h
    simp only [runAux] at h
    cases hs : stepByte key cap b st acc with
    | found v => simp [hs] at h
    | stopped => simp [hs] at h
    | cont st1 acc1 =>
      rw [hs] at h
      exact ih st1 acc1 (stepByte_cont_inv key cap b st acc hinv st1 acc1 hs)
        st' acc' h

/-- Matching the remaining key suffix `rem` consumes exactly the bytes of
`rem` and leaves the parser expecting the separator. -/
theorem runAux_match_keyS (key : List Nat) (cap : Nat) (rem rest acc1 : List Nat)
    (hrem : rem ≠ [])
    (hclean : ∀ b ∈ rem, isCleanByte b = true) :
    runAux key cap (rem ++ rest) (.keyS rem) acc1 =
      runAux key cap rest .separator acc1 := by
  induction rem with
  | nil => exact absurd rfl hrem
  | cons r0 rrest ih =>
    have hr0 : isCleanByte r0 = true := hclean r0 (by simp)
    have hterm : isTermByte r0 = false := by
      simp only [isCleanByte, Bool.and_eq_true, Bool.not_eq_true'] at hr0
      exact hr0.1
    have heol : isEolByte r0 = false := by
      simp only [isCleanByte, Bool.and_eq_true, Bool.not_eq_true'] at hr0
      exact hr0.2
    simp only [List.cons_append, runAux, stepByte, hterm, heol,
      Bool.false_eq_true, if_false, stepKeyChar, if_pos rfl]
    by_cases hrr : rrest = []
    · subst hrr
      simp
    · simp only [hrr, if_false]
      exact ih hrr (fun b hb => hclean b (by simp [hb]))

/-- Matching the whole key from the start of a line consumes exactly the
bytes of the key and leaves the parser expecting the separator. -/
theorem runAux_match_key (key : List Nat) (cap : Nat) (rest acc1 : List Nat)
    (hkey : key ≠ [])
    (hclean : ∀ b ∈ key, isCleanByte b = true) :
    runAux key cap (key ++ rest) .newLine acc1 =
      runAux key cap rest .separator acc1 := by
  cases key with
  | nil => exact absurd rfl hkey
  | cons k0 krest =>
    have hk0 : isCleanByte k0 = true := hclean k0 (by simp)
    have hterm : isTermByte k0 = false := by
      simp only [isCleanByte, Bool.and_eq_true, Bool.not_eq_true'] at hk0
      exact hk0.1
    have heol : isEolByte k0 = false := by
      simp only [isCleanByte, Bool.and_eq_true, Bool.not_eq_true'] at hk0
      exact hk0.2
    simp only [List.cons_append, runAux, stepByte, hterm, heol,
      Bool.false_eq_true, if_false, stepKeyChar, if_pos rfl]
    by_cases hkr : krest = []
    · subst hkr
      simp
    · simp only [hkr, if_false]
      exact runAux_match_keyS _ cap krest rest acc1 hkr
        (fun b hb => hclean b (by simp [hb]))

/-- In the `value` state, clean bytes are copied to the output while the
capacity permits. -/
theorem runAux_copy_value (key : List Nat) (cap : Nat) (v rest acc1 : List Nat)
    (hclean : ∀ b ∈ v, isCleanByte b = true)
    (hcap : acc1.length + v.length ≤ cap) :
    runAux key cap (v ++ rest) .value acc1 =
      runAux key cap rest .value (acc1 ++ v) := by
  induction v generalizing acc1 with
  | nil => simp
  | cons b vt ih =>
    have hb : isCleanByte b = true := hclean b (by simp)
    have hterm : isTermByte b = false := by
      simp only [isCleanByte, Bool.and_eq_true, Bool.not_eq_true'] at hb
      exact hb.1
    have heol : isEolByte b = false := by
      simp only [isCleanByte, Bool.and_eq_true, Bool.not_eq_true'] at hb
      exact hb.2
    have hlt : ¬ cap ≤ acc1.length := by
      simp only [List.length_cons] at hcap
      omega
    simp only [List.cons_append, runAux, stepByte, hterm, heol,
      Bool.false_eq_true, if_false, hlt, List.append_eq]
    rw [ih (acc1 ++ [b]) (fun x hx => hclean x (by simp [hx]))
      (by simp only [List.length_append, List.length_cons,
            List.length_nil] at hcap ⊢; omega)]
    simp

/-- An end-of-line byte outside the `value` state resets the parser to the
start of a line; inside the `value` state it returns the value. -/
theorem runAux_eol (key : List Nat) (cap b : Nat) (st : PState)
    (acc : List Nat) (hterm : isTermByte b = false)
    (heol : isEolByte b = true) (rest : List Nat) :
    runAux key cap (b :: rest) st acc =
      (if st = .value then .found acc
       else runAux key cap rest .newLine acc) := by
  simp only [runAux, stepByte, hterm, Bool.false_eq_true, if_false, heol,
    if_true]
  by_cases hv : st = .value <;> simp [hv]

/-- Claim C1 main theorem, amended: if the blob consists of a prefix `pre`
(either empty or ending with a newline, free of terminator bytes, in which
the key is not found), followed by the line `key=value`, then the lookup
returns exactly that value, provided the key and value contain no
terminator or end-of-line bytes, the key is nonempty, and the caller's
buffer has room for the value. -/
theorem lookupValue_finds_first_embedded_entry
    (pre k v s : List Nat) (cap : Nat)
    (hk : k ≠ [])
    (hpre : pre = [] ∨ ∃ p, pre = p ++ [10])
    (hpreclean : ∀ b ∈ pre, isTermByte b = false)
    (hkclean : ∀ b ∈ k, isCleanByte b = true)
    (hvclean : ∀ b ∈ v, isCleanByte b = true)
    (hcap : v.length ≤ cap)
    (hfirst : lookupValue k pre cap = none) :
    lookupValue k (pre ++ k ++ [61] ++ v ++ [10] ++ s) cap = some v := by
  -- step 1: the prefix leaves the parser at the start of a line with no
  -- copied bytes
  have h10t : isTermByte 10 = false := by decide
  have h10e : isEolByte 10 = true := by decide
  have hprerun : runAux k cap pre .newLine [] = .cont .newLine [] := by
    rcases hpre with hnil | ⟨p, hp⟩
    · subst hnil
      simp [runAux]
    · subst hp
      unfold lookupValue at hfirst
      rw [if_neg hk] at hfirst
      rw [runAux_append] at hfirst ⊢
      cases hrun : runAux k cap p .newLine [] with
      | found w => simp [hrun, finishRun] at hfirst
      | stopped =>
        exact absurd hrun (runAux_no_stop k cap p .newLine []
          (fun b hb => hpreclean b (by simp [hb])))
      | cont st1 acc1 =>
        simp only [hrun] at hfirst ⊢
        rw [runAux_eol k cap 10 st1 acc1 h10t h10e []] at hfirst ⊢
        by_cases hv : st1 = .value
        · rw [if_pos hv] at hfirst
          simp [finishRun] at hfirst
        · have hacc : acc1 = [] :=
            (runAux_acc_inv k cap p .newLine [] (Or.inr rfl) st1 acc1
              hrun).resolve_left hv
          rw [if_neg hv, hacc]
          simp [runAux]
  -- step 2: the key=value line is parsed and the value returned
  have h61t : isTermByte 61 = false := by decide
  have h61e : isEolByte 61 = false := by decide
  have h2 : runAux k cap (k ++ ([61] ++ (v ++ (10 :: s)))) .newLine [] =
      runAux k cap ([61] ++ (v ++ (10 :: s))) .separator [] :=
    runAux_match_key k cap ([61] ++ (v ++ (10 :: s))) [] hk hkclean
  have h3 : runAux k cap ([61] ++ (v ++ (10 :: s))) .separator [] =
      runAux k cap (v ++ (10 :: s)) .value [] := by
    simp [runAux, stepByte, h61t, h61e]
  have h4 : runAux k cap (v ++ (10 :: s)) .value [] =
      runAux k cap (10 :: s) .value ([] ++ v) :=
    runAux_copy_value k cap v (10 :: s) [] hvclean (by simpa using hcap)
  have h5 : runAux k cap (10 :: s) .value ([] ++ v) = .found ([] ++ v) := by
    rw [runAux_eol k cap 10 .value ([] ++ v) h10t h10e s]
    simp
  unfold lookupValue
  rw [if_neg hk]
  have hassoc : pre ++ k ++ [61] ++ v ++ [10] ++ s =
      pre ++ (k ++ ([61] ++ (v ++ (10 :: s)))) := by
    simp [List.append_assoc]
  rw [hassoc, runAux_append]
  simp only [hprerun]
  rw [h2, h3, h4, h5]
  simp [finishRun]

/-- Witness for the amended claim C1 at a concrete input: the blob
`"x=y\nkey=hello\nz=1\n"` yields value `"hello"` for key `"key"`. -/
theorem lookupValue_finds_first_embedded_entry_witness :
    lookupValue [107, 101, 121]
      ([120, 61, 121, 10] ++ [107, 101, 121] ++ [61] ++
        [104, 101, 108, 108, 111] ++ [10] ++ [122, 61, 49, 10]) 99 =
      some [104, 101, 108, 108, 111] :=
  lookupValue_finds_first_embedded_entry
    [120, 61, 121, 10] [107, 101, 121] [104, 101, 108, 108, 111]
    [122, 61, 49, 10] 99
    (by decide)
    (Or.inr ⟨[120, 61, 121], by decide⟩)
    (by decide)
    (by decide)
    (by decide)
    (by decide)
    (by decide)

/-- Counterexample to claim C1 as literally stated: the blob `"a=1\na=2\n"`
contains the byte sequence `"\na=2\n"` before any terminator byte (and also
starts with `"a=" ++ v ++ "\n"` for `v = "1\na=2"`), yet `lookup("a")`
returns `"1"`, which differs from both embedded values.  The first
occurrence of the key wins, and the returned value stops at the first
end-of-line byte. -/
theorem lookupValue_literal_claim_counterexample :
    lookupValue [97] [97, 61, 49, 10, 97, 61, 50, 10] 99 = some [49] ∧
    ([97, 61, 49, 10, 97, 61, 50, 10] : List Nat) =
      [97, 61, 49] ++ [10] ++ [97] ++ [61] ++ [50] ++ [10] ++ [] ∧
    ([97, 61, 49, 10, 97, 61, 50, 10] : List Nat) =
      [97] ++ [61] ++ [49, 10, 97, 61, 50] ++ [10] ++ [] ∧
    ([97, 61, 49, 10, 97, 61, 50, 10] : List Nat).all
      (fun b => !(isTermByte b)) = true ∧
    some ([49] : List Nat) ≠ some [50] ∧
    some ([49] : List Nat) ≠ some [49, 10, 97, 61, 50] := by
  refine ⟨by decide, by decide, by decide, by decide, by decide, by decide⟩

/-- Claim C2: the lookup parses the blob only up to the first terminator
byte in `{0x00, 0x1A, 0xFF}` (or up to the end of the fixed-size region,
which is the end of the byte list): the result on any blob equals the
result on the prefix before the first terminator byte, so no `key=value`
line at or after that point is ever returned. -/
theorem lookupValue_stops_at_terminator (k blob : List Nat) (cap : Nat) :
    lookupValue k blob cap =
      lookupValue k (blob.takeWhile (fun b => !(isTermByte b))) cap := by
  unfold lookupValue
  by_cases hk : k = []
  · simp [hk]
  · rw [if_neg hk, if_neg hk]
    have key_fact : ∀ (l : List Nat) (st : PState) (acc : List Nat),
        finishRun (runAux k cap l st acc) =
          finishRun (runAux k cap (l.takeWhile (fun b => !(isTermByte b)))
            st acc) := by
      intro l
      induction l with
      | nil => intro st acc; rfl
      | cons b rest ih =>
        intro st acc
        cases hterm : isTermByte b with
        | true =>
          simp only [List.takeWhile_cons, hterm, Bool.not_true,
            Bool.false_eq_true, if_false]
          simp only [runAux, stepByte, hterm, if_true]
          by_cases hv : st = .value <;> simp [hv, finishRun]
        | false =>
          simp only [List.takeWhile_cons, hterm, Bool.not_false, if_true]
          simp only [runAux]
          cases hs : stepByte k cap b st acc with
          | found w => rfl
          | stopped => exact absurd hs (stepByte_no_stop k cap b st acc hterm)
          | cont st1 acc1 => exact ih st1 acc1
    exact key_fact blob .newLine []

/-! ### Flash update lemmas -/

theorem flipAt_length (l : List Nat) (i : Nat) :
    (flipAt l i).length = l.length := by
  induction l generalizing i with
  | nil => rfl
  | cons b rest ih =>
    cases i with
    | zero => rfl
    | succ n => simp [flipAt, ih]

theorem flipAt_getElem_self (l : List Nat) (i : Nat) (h : i < l.length) :
    (flipAt l i)[i]? = some (l.get ⟨i, h⟩ ^^^ 1) := by
  simp only [List.get_eq_getElem]
  induction l generalizing i with
  | nil => simp at h
  | cons b rest ih =>
    cases i with
    | zero => simp [flipAt]
    | succ n =>
      simp only [flipAt, List.getElem?_cons_succ, List.getElem_cons_succ]
      exact ih n (by simpa using h)

theorem flipAt_take_le (l : List Nat) (i n : Nat) (h : n ≤ i) :
    (flipAt l i).take n = l.take n := by
  induction l generalizing i n with
  | nil => rfl
  | cons b rest ih =>
    cases n with
    | zero => simp
    | succ m =>
      cases i with
      | zero => omega
      | succ j =>
        simp only [flipAt, List.take_succ_cons]
        rw [ih j m (by omega)]

/-- A byte differs from itself with the lowest bit flipped. -/
theorem xor_one_ne_self (b : Nat) : b ^^^ 1 ≠ b := by
  intro h
  have h0 := congrArg (fun x => x.testBit 0) h
  simp only [Nat.testBit_xor] at h0
  simp at h0

theorem paddedImage_length (settingsSize : Nat) (file : List Nat)
    (h : file.length ≤ settingsSize) :
    (paddedImage settingsSize file).length = settingsSize := by
  simp [paddedImage]
  omega

/-- The page-programming loop does nothing once the offset has passed the
end of the file; if the memory then holds the padded image up to the offset
followed by erased bytes, it holds the full padded image. -/
theorem programPages_terminal (pageSize : Nat) (hp : 0 < pageSize)
    (settingsSize : Nat) (file : List Nat)
    (hfs : file.length ≤ settingsSize)
    (offset : Nat) (f : Flash) (hstop : file.length ≤ offset)
    (hoS : offset ≤ settingsSize)
    (hmem : f.mem = (paddedImage settingsSize file).take offset ++
      List.replicate (settingsSize - offset) 255) :
    (programPages pageSize hp file offset f).mem =
        paddedImage settingsSize file ∧
    (programPages pageSize hp file offset f).programs =
        f.programs + (file.length - offset + pageSize - 1) / pageSize ∧
    (programPages pageSize hp file offset f).erases = f.erases ∧
    (programPages pageSize hp file offset f).verifies = f.verifies ∧
    (programPages pageSize hp file offset f).errorAt = f.errorAt := by
  have hstop' : ¬ offset < file.length := by omega
  rw [programPages, dif_neg hstop']
  have hfin : (paddedImage settingsSize file).take offset ++
      List.replicate (settingsSize - offset) 255 =
      paddedImage settingsSize file := by
    simp only [paddedImage, List.take_append_eq_append_take]
    rw [List.take_of_length_le hstop, List.take_replicate]
    rw [List.append_assoc, ← List.replicate_add]
    congr 2
    omega
  refine ⟨hmem ▸ hfin, ?_, rfl, rfl, rfl⟩
  have hz : file.length - offset = 0 := by omega
  rw [hz]
  have hdiv0 : (0 + pageSize - 1) / pageSize = 0 := by
    apply Nat.div_eq_of_lt
    omega
  rw [hdiv0]
  omega

/-- Behaviour of the page-programming loop: starting from a state whose
memory is the padded image up to `offset` followed by erased bytes, it
produces the full padded image, performs one program per remaining page and
touches nothing else. -/
theorem programPages_spec (pageSize : Nat) (hp : 0 < pageSize)
    (settingsSize : Nat) (file : List Nat)
    (hfs : file.length ≤ settingsSize)
    (hdiv : pageSize ∣ settingsSize) :
    ∀ n offset f, file.length - offset ≤ n → pageSize ∣ offset →
      offset ≤ settingsSize →
      f.mem = (paddedImage settingsSize file).take offset ++
        List.replicate (settingsSize - offset) 255 →
      (programPages pageSize hp file offset f).mem =
          paddedImage settingsSize file ∧
      (programPages pageSize hp file offset f).programs =
          f.programs + (file.length - offset + pageSize - 1) / pageSize ∧
      (programPages pageSize hp file offset f).erases = f.erases ∧
      (programPages pageSize hp file offset f).verifies = f.verifies ∧
      (programPages pageSize hp file offset f).errorAt = f.errorAt := by
  intro n
  induction n with
  | zero =>
    intro offset f hn hdo hoS hmem
    exact programPages_terminal pageSize hp settingsSize file hfs offset f
      (by omega) hoS hmem
  | succ m ih =>
    intro offset f hn hdo hoS hmem
    by_cases hlt : offset < file.length
    · rw [programPages, dif_pos hlt]
      -- the next page boundary stays inside the region
      have hop : offset + pageSize ≤ settingsSize := by
        obtain ⟨a, ha⟩ := hdo
        obtain ⟨b, hb⟩ := hdiv
        have hab : a < b := by
          by_contra hcon
          push_neg at hcon
          have : settingsSize ≤ offset := by
            rw [ha, hb]
            exact Nat.mul_le_mul_left pageSize hcon
          omega
        calc offset + pageSize = pageSize * (a + 1) := by rw [ha]; ring
        _ ≤ pageSize * b := Nat.mul_le_mul_left pageSize (by omega)
        _ = settingsSize := hb.symm
      have hdl : (file.drop offset).length = file.length - offset := by simp
      have hplen : (pageAt pageSize file offset).length = pageSize := by
        rw [pageAt]
        split
        · rw [List.length_take, hdl]
          omega
        · simp only [List.length_append, hdl, List.length_replicate]
          omega
      have hpage : pageAt pageSize file offset =
          ((paddedImage settingsSize file).drop offset).take pageSize := by
        have hdropp : (paddedImage settingsSize file).drop offset =
            file.drop offset ++
              List.replicate (settingsSize - file.length) 255 := by
          simp only [paddedImage, List.drop_append_eq_append_drop]
          have : offset - file.length = 0 := by omega
          rw [this, List.drop_replicate]
          simp
        rw [hdropp, pageAt, List.take_append_eq_append_take]
        split
        · rename_i hcase
          have h2 : pageSize - (file.drop offset).length = 0 := by
            rw [hdl]
            omega
          rw [h2, List.take_replicate]
          simp
        · rename_i hcase
          push_neg at hcase
          have h1 : (file.drop offset).take pageSize = file.drop offset :=
            List.take_of_length_le (by rw [hdl]; omega)
          have h2 : pageSize - (file.drop offset).length =
              pageSize - (file.length - offset) := by
            rw [hdl]
          have hminle : pageSize - (file.length - offset) ≤
              settingsSize - file.length := by omega
          rw [h1, h2, List.take_replicate, Nat.min_eq_left hminle]
      -- memory after programming this page
      have hmem2 : (flashProgramPage offset (pageAt pageSize file offset)
            f).mem =
          (paddedImage settingsSize file).take (offset + pageSize) ++
            List.replicate (settingsSize - (offset + pageSize)) 255 := by
        have hpadlen : (paddedImage settingsSize file).length =
            settingsSize := paddedImage_length settingsSize file hfs
        have htklen : ((paddedImage settingsSize file).take offset).length =
            offset := by
          rw [List.length_take, hpadlen]
          omega
        have hA : f.mem.take offset =
            (paddedImage settingsSize file).take offset := by
          rw [hmem, List.take_append_eq_append_take]
          rw [List.take_of_length_le (le_of_eq htklen), htklen]
          simp
        have hD : f.mem.drop (offset + pageSize) =
            List.replicate (settingsSize - (offset + pageSize)) 255 := by
          rw [hmem, List.drop_append_eq_append_drop]
          rw [List.drop_of_length_le (by rw [htklen]; omega), htklen]
          rw [List.drop_replicate]
          simp only [List.nil_append]
          congr 1
          omega
        show f.mem.take offset ++ pageAt pageSize file offset ++
            f.mem.drop (offset + (pageAt pageSize file offset).length) =
          (paddedImage settingsSize file).take (offset + pageSize) ++
            List.replicate (settingsSize - (offset + pageSize)) 255
        rw [hplen, hA, hD, hpage, List.take_add]
      have hstep := ih (offset + pageSize)
        (flashProgramPage offset (pageAt pageSize file offset) f)
        (by omega) (by exact Dvd.dvd.add hdo dvd_rfl) hop hmem2
      refine ⟨hstep.1, ?_, ?_, ?_, ?_⟩
      · rw [hstep.2.1]
        simp only [flashProgramPage]
        have hcount : (file.length - offset + pageSize - 1) / pageSize =
            1 + (file.length - (offset + pageSize) + pageSize - 1) /
              pageSize := by
          by_cases hbig : offset + pageSize ≤ file.length
          · have h1 : file.length - offset + pageSize - 1 =
                (file.length - (offset + pageSize) + pageSize - 1) +
                  pageSize := by omega
            rw [h1, Nat.add_div_right _ hp, Nat.add_comm]
          · push_neg at hbig
            have h1 : file.length - (offset + pageSize) = 0 := by omega
            rw [h1]
            have h2 : (0 + pageSize - 1) / pageSize = 0 :=
              Nat.div_eq_of_lt (by omega)
            have h3 : (file.length - offset + pageSize - 1) / pageSize = 1 :=
              Nat.div_eq_of_lt_le (by omega) (by omega)
            rw [h2, h3]
        rw [hcount]
        ring
      · rw [hstep.2.2.1]; rfl
      · rw [hstep.2.2.2.1]; rfl
      · rw [hstep.2.2.2.2]; rfl
    · exact programPages_terminal pageSize hp settingsSize file hfs offset f
        (by omega) hoS hmem

theorem flashVerify_noerr (offset : Nat) (data : List Nat) (f : Flash)
    (h : f.mem.length ≤ f.errorAt) :
    flashVerify offset data f =
      (((f.mem.drop offset).take data.length == data),
        { f with verifies := f.verifies + 1 }) := by
  simp [flashVerify, injectFault, Nat.not_lt.mpr h]

theorem flashVerify_err (offset : Nat) (data : List Nat) (f : Flash)
    (h : f.errorAt < f.mem.length) :
    flashVerify offset data f =
      ((((flipAt f.mem f.errorAt).drop offset).take data.length == data),
        { f with mem := flipAt f.mem f.errorAt, errorAt := f.mem.length,
                 verifies := f.verifies + 1 }) := by
  simp [flashVerify, injectFault, h]

/-- The image written by a successful update starts with the file bytes. -/
theorem paddedImage_take (settingsSize : Nat) (file : List Nat) :
    (paddedImage settingsSize file).take file.length = file := by
  simp only [paddedImage, List.take_append_eq_append_take]
  rw [List.take_of_length_le (le_refl _)]
  simp

/-- Successful-verify branch: if the region holds exactly the padded image
and no fault is pending, the verify step(s) succeed and return `OK`,
incrementing the verify counter once (twice for a short file). -/
theorem finishFirstVerify_ok (settingsSize : Nat) (file : List Nat)
    (F2 : Flash) (hle : file.length ≤ settingsSize)
    (hm : F2.mem = paddedImage settingsSize file)
    (hea : settingsSize ≤ F2.errorAt) :
    finishFirstVerify settingsSize file (flashVerify 0 file F2) =
      (PICO_OK, { F2 with verifies := F2.verifies +
        (if file.length < settingsSize then 2 else 1) }) := by
  have hml : F2.mem.length = settingsSize := by
    rw [hm]
    exact paddedImage_length _ _ hle
  rw [flashVerify_noerr 0 file F2 (by rw [hml]; exact hea)]
  have hcmp1 : (F2.mem.drop 0).take file.length = file := by
    rw [hm, List.drop_zero, paddedImage_take]
  simp only [finishFirstVerify, hcmp1, beq_self_eq_true, if_true]
  by_cases hltS : file.length < settingsSize
  · rw [if_pos hltS]
    rw [flashVerify_noerr file.length [255]
      { F2 with verifies := F2.verifies + 1 }
      (by show F2.mem.length ≤ F2.errorAt; rw [hml]; exact hea)]
    have hcmp2 : (F2.mem.drop file.length).take (1 : Nat) = [255] := by
      rw [hm]
      simp only [paddedImage, List.drop_append_eq_append_drop]
      rw [List.drop_of_length_le (le_refl _), Nat.sub_self,
        List.drop_replicate, Nat.sub_zero]
      rw [List.nil_append, List.take_replicate]
      rw [Nat.min_eq_left (by omega)]
      rfl
    simp only [finishSecondVerify, List.length_singleton, hcmp2,
      beq_self_eq_true, if_true, if_pos hltS]
  · rw [if_neg hltS, if_neg hltS]

/-- Failing-verify branch: if the region holds the padded image except for
one flipped bit at or before the file terminator, a verify mismatch is
detected and the result is `INVALID_DATA`. -/
theorem finishFirstVerify_err (settingsSize : Nat) (file : List Nat)
    (F2 : Flash) (hle : file.length ≤ settingsSize)
    (hm : F2.mem = paddedImage settingsSize file)
    (heale : F2.errorAt ≤ file.length)
    (healt : F2.errorAt < settingsSize) :
    (finishFirstVerify settingsSize file (flashVerify 0 file F2)).fst =
      PICO_ERROR_INVALID_DATA := by
  have hpadl : (paddedImage settingsSize file).length = settingsSize :=
    paddedImage_length _ _ hle
  have hml : F2.mem.length = settingsSize := by rw [hm, hpadl]
  have hElen : F2.errorAt < (paddedImage settingsSize file).length := by
    rw [hpadl]
    exact healt
  rw [flashVerify_err 0 file F2 (by rw [hml]; exact healt)]
  by_cases hcase : F2.errorAt < file.length
  · -- the fault sits inside the written data: first verify fails
    have hne : ((flipAt F2.mem F2.errorAt).drop 0).take file.length ≠
        file := by
      intro hcontra
      have hq := congrArg (fun l => l[F2.errorAt]?) hcontra
      simp only [List.drop_zero, hm] at hq
      rw [List.getElem?_take_of_lt hcase,
        flipAt_getElem_self _ _ hElen] at hq
      have hpe : (paddedImage settingsSize file).get ⟨F2.errorAt, hElen⟩ =
          file.get ⟨F2.errorAt, hcase⟩ := by
        simp [List.get_eq_getElem, paddedImage,
          List.getElem_append_left hcase]
      rw [hpe, List.getElem?_eq_getElem hcase] at hq
      exact xor_one_ne_self _ (Option.some.inj hq)
    simp only [finishFirstVerify, beq_eq_false_iff_ne.mpr hne]
    simp
  · -- the fault sits at the terminator byte: second verify fails
    have heq : F2.errorAt = file.length := by omega
    have hfl : file.length < settingsSize := by omega
    have hok1 : ((flipAt F2.mem F2.errorAt).drop 0).take file.length =
        file := by
      rw [List.drop_zero, hm, heq, flipAt_take_le _ _ _ (le_refl _),
        paddedImage_take]
    simp only [finishFirstVerify, hok1, beq_self_eq_true, if_true,
      if_pos hfl]
    have hlenflip : (flipAt F2.mem F2.errorAt).length = settingsSize := by
      rw [flipAt_length, hml]
    rw [flashVerify_noerr file.length [255] _ (by
      show (flipAt F2.mem F2.errorAt).length ≤ F2.mem.length
      rw [hlenflip, hml])]
    have hbad2 : ((flipAt F2.mem F2.errorAt).drop file.length).take
        (1 : Nat) ≠ [255] := by
      intro hcontra
      have hq : (((flipAt F2.mem F2.errorAt).drop file.length).take
          (1 : Nat))[(0 : Nat)]? = ([255] : List Nat)[(0 : Nat)]? := by
        rw [hcontra]
      rw [List.getElem?_take_of_lt (by omega)] at hq
      rw [List.getElem?_drop, Nat.add_zero, ← heq, hm,
        flipAt_getElem_self _ _ hElen] at hq
      have hpe : (paddedImage settingsSize file).get ⟨F2.errorAt, hElen⟩ =
          255 := by
        have h255 : (paddedImage settingsSize file)[F2.errorAt]? =
            some 255 := by
          rw [paddedImage, List.getElem?_append_right (by omega), heq,
            Nat.sub_self]
          rw [List.getElem?_replicate_of_lt (by omega)]
        have hg := List.getElem?_eq_getElem hElen
        rw [hg] at h255
        exact Option.some.inj h255
      rw [hpe] at hq
      simp at hq
    simp only [finishSecondVerify, List.length_singleton,
      beq_eq_false_iff_ne.mpr hbad2]
    simp

/-- Claim C3: `wifi_settings_update_flash_unsafe` rejects oversized files
with `INVALID_ARG` and no flash operation; otherwise it performs exactly
one erase, `ceil(size/PAGE_SIZE)` page programs (the final short page
padded with `0xFF`), one verify of the written bytes and — when the file is
shorter than the region — a second verify that the byte after the file
reads `0xFF`; without a fault it returns `OK` and the region holds the file
followed by `0xFF` padding, while a fault injected at any byte of the
written data or at the terminator byte makes a verify mismatch and yields
`INVALID_DATA`. -/
theorem updateFlashUnsafe_spec (pageSize settingsSize : Nat)
    (hp : 0 < pageSize) (hdiv : pageSize ∣ settingsSize) (file : List Nat)
    (f : Flash) (_hmem : f.mem.length = settingsSize) :
    (settingsSize < file.length →
      updateFlashUnsafe pageSize hp settingsSize file f =
        (PICO_ERROR_INVALID_ARG, f)) ∧
    (file.length ≤ settingsSize → settingsSize ≤ f.errorAt →
      (updateFlashUnsafe pageSize hp settingsSize file f).fst = PICO_OK ∧
      (updateFlashUnsafe pageSize hp settingsSize file f).snd.mem =
        paddedImage settingsSize file ∧
      (updateFlashUnsafe pageSize hp settingsSize file f).snd.erases =
        f.erases + 1 ∧
      (updateFlashUnsafe pageSize hp settingsSize file f).snd.programs =
        f.programs + (file.length + pageSize - 1) / pageSize ∧
      (updateFlashUnsafe pageSize hp settingsSize file f).snd.verifies =
        f.verifies + (if file.length < settingsSize then 2 else 1)) ∧
    (file.length ≤ settingsSize → f.errorAt ≤ file.length →
      f.errorAt < settingsSize →
      (updateFlashUnsafe pageSize hp settingsSize file f).fst =
        PICO_ERROR_INVALID_DATA) := by
  refine ⟨?_, ?_, ?_⟩
  · intro hbig
    unfold updateFlashUnsafe
    rw [if_pos hbig]
  · intro hle herr
    have hnlt : ¬ settingsSize < file.length := Nat.not_lt.mpr hle
    obtain ⟨hm2, hpr2, he2, hv2, hea2⟩ :=
      programPages_spec pageSize hp settingsSize file hle hdiv
        file.length 0 (flashEraseRegion settingsSize f) (by omega)
        (dvd_zero _) (Nat.zero_le _)
        (by simp [flashEraseRegion, paddedImage])
    unfold updateFlashUnsafe
    rw [if_neg hnlt]
    rw [finishFirstVerify_ok settingsSize file _ hle hm2
      (by rw [hea2]; show settingsSize ≤ f.errorAt; exact herr)]
    refine ⟨rfl, by simp [hm2], ?_, ?_, ?_⟩
    · show (programPages pageSize hp file 0
        (flashEraseRegion settingsSize f)).erases = f.erases + 1
      rw [he2]
      rfl
    · show (programPages pageSize hp file 0
        (flashEraseRegion settingsSize f)).programs =
        f.programs + (file.length + pageSize - 1) / pageSize
      rw [hpr2, Nat.sub_zero]
      rfl
    · show (programPages pageSize hp file 0
          (flashEraseRegion settingsSize f)).verifies +
          (if file.length < settingsSize then 2 else 1) =
        f.verifies + (if file.length < settingsSize then 2 else 1)
      rw [hv2]
      rfl
  · intro hle herrle herrlt
    have hnlt : ¬ settingsSize < file.length := Nat.not_lt.mpr hle
    obtain ⟨hm2, hpr2, he2, hv2, hea2⟩ :=
      programPages_spec pageSize hp settingsSize file hle hdiv
        file.length 0 (flashEraseRegion settingsSize f) (by omega)
        (dvd_zero _) (Nat.zero_le _)
        (by simp [flashEraseRegion, paddedImage])
    unfold updateFlashUnsafe
    rw [if_neg hnlt]
    exact finishFirstVerify_err settingsSize file _ hle hm2
      (by rw [hea2]; show f.errorAt ≤ file.length; exact herrle)
      (by rw [hea2]; show f.errorAt < settingsSize; exact herrlt)

/-- Witness for claim C3: a 3-byte file written into an 8 KiB region with
512-byte pages (the unit-test parameters) succeeds without a fault and is
rejected with `INVALID_DATA` under a fault at byte 0. -/
theorem updateFlashUnsafe_spec_witness :
    (updateFlashUnsafe 512 (by decide) 8192 [1, 2, 3]
      { mem := List.replicate 8192 204, erases := 0, programs := 0,
        verifies := 0, errorAt := 99999 }).fst = PICO_OK ∧
    (updateFlashUnsafe 512 (by decide) 8192 [1, 2, 3]
      { mem := List.replicate 8192 204, erases := 0, programs := 0,
        verifies := 0, errorAt := 0 }).fst = PICO_ERROR_INVALID_DATA :=
  ⟨((updateFlashUnsafe_spec 512 8192 (by decide) ⟨16, rfl⟩ [1, 2, 3]
      { mem := List.replicate 8192 204, erases := 0, programs := 0,
        verifies := 0, errorAt := 99999 }
      (by rw [List.length_replicate])).2.1 (by decide) (by decide)).1,
    (updateFlashUnsafe_spec 512 8192 (by decide) ⟨16, rfl⟩ [1, 2, 3]
      { mem := List.replicate 8192 204, erases := 0, programs := 0,
        verifies := 0, errorAt := 0 }
      (by rw [List.length_replicate])).2.2 (by decide) (by decide)
      (by decide)⟩

/-! ## C4: secret derivation and the no-secret error -/

theorem stretchRounds_eq_iterate (sha : List Nat → List Nat)
    (secret : List Nat) (n : Nat) :
    stretchRounds sha secret n =
      (fun h => sha (h ++ secret))^[n] (List.replicate 32 0) := by
  induction n with
  | zero => rfl
  | succ k ih =>
    rw [Function.iterate_succ_apply']
    simp only [stretchRounds, ih]

/-- C4: the hashed key equals 4096 SHA-256 rounds, each hashing the
previous 32-byte output concatenated with the raw secret, starting from
the all-zero state; an absent or empty `update_secret` leaves the secret
invalid, and a session without a valid secret answers a well-formed
`ID_REQUEST` block with the cleartext block `[NO_SECRET_ERROR, 0*15]` and
then disconnects. -/
theorem updateSecret_spec
    (sha : List Nat → List Nat) (secret : List Nat) (hne : secret ≠ [])
    (env : Env) (g : Globals) (s : Session)
    (hval : g.secretValid = false) (hst : s.state = RState.expectRequest)
    (hreq : s.inputBlock.getD 0 0 = ID_REQUEST) :
    updateSecretGlobals sha (some secret) =
      (true, specStretchedKey sha secret) ∧
    updateSecretGlobals sha none = (false, List.replicate 32 0) ∧
    updateSecretGlobals sha (some []) = (false, List.replicate 32 0) ∧
    (handleInputBlock env g s).1 = true ∧
    (handleInputBlock env g s).2.state = RState.sendNoSecretError ∧
    serverSentEvents env g 2 (handleInputBlock env g s).2 =
      [Event.sentBlock (ID_NO_SECRET_ERROR :: List.replicate 15 0),
        Event.closedConn] := by
  have hlen : 0 < secret.length := List.length_pos.mpr hne
  have h1 : updateSecretGlobals sha (some secret) =
      (true, specStretchedKey sha secret) := by
    simp only [updateSecretGlobals, if_pos hlen, specStretchedKey,
      stretchRounds_eq_iterate]
  have hreq' : s.inputBlock[0]?.getD 0 = 71 := by
    simpa [List.getD_eq_getElem?_getD, ID_REQUEST] using hreq
  have hin : handleInputBlock env g s =
      (true, { s with state := RState.sendNoSecretError }) := by
    simp [handleInputBlock, hst, hreq', hval, ID_REQUEST]
  refine ⟨h1, rfl, rfl, ?_, ?_, ?_⟩
  · rw [hin]
  · rw [hin]
  · rw [hin]
    simp [serverSentEvents, sendWhileAble, generateOutputBlock,
      generateClearHeaderForError]

theorem updateSecret_spec_witness :
    (([1] : List Nat) ≠ [] ∧ wGns.secretValid = false ∧
      wS4.state = RState.expectRequest ∧
      wS4.inputBlock.getD 0 0 = ID_REQUEST) ∧
    (updateSecretGlobals wSha (some [1]) =
      (true, specStretchedKey wSha [1]) ∧
    updateSecretGlobals wSha none = (false, List.replicate 32 0) ∧
    updateSecretGlobals wSha (some []) = (false, List.replicate 32 0) ∧
    (handleInputBlock wEnv wGns wS4).1 = true ∧
    (handleInputBlock wEnv wGns wS4).2.state = RState.sendNoSecretError ∧
    serverSentEvents wEnv wGns 2 (handleInputBlock wEnv wGns wS4).2 =
      [Event.sentBlock (ID_NO_SECRET_ERROR :: List.replicate 15 0),
        Event.closedConn]) :=
  ⟨⟨by decide, rfl, rfl, rfl⟩,
    updateSecret_spec wSha [1] (by decide) wEnv wGns wS4 rfl rfl rfl⟩

/-! ## C5: client authentication check -/

theorem generateAuthentication_eq_hmac (env : Env)
    (key cc sc code : List Nat) (n : Nat) :
    generateAuthentication env key cc sc code n =
      (specHmacSha256 env.sha256 key (cc ++ sc ++ code)).take n := by
  have h92 : (54 : Nat) ^^^ (92 ^^^ 54) = 92 := by decide
  have hf : ∀ b : Nat, (b ^^^ 54) ^^^ (92 ^^^ 54) = b ^^^ 92 := by
    intro b
    rw [Nat.xor_assoc, h92]
  simp only [generateAuthentication, specHmacSha256, HMAC_BLOCK_SIZE,
    HMAC_DIGEST_SIZE, List.map_append, List.map_map, List.map_replicate]
  rw [show ((fun b => b ^^^ (92 ^^^ 54)) ∘ fun b : Nat => b ^^^ 54) =
    (fun b : Nat => b ^^^ 92) from funext hf]
  rw [h92]
  simp [List.append_assoc]

/-- C5: in `EXPECT_AUTHENTICATION`, a 16-byte block starting with
`ID_AUTHENTICATION` whose bytes 1..15 differ from the first 15 bytes of
HMAC-SHA-256 (keyed by the hashed secret, over
client_challenge || server_challenge || "CA") makes the session send the
cleartext block `[AUTH_ERROR, 0*15]` and close; a matching block makes it
emit `[ID_RESPONSE, HMAC tag "SA" (15 bytes)]` and await the
acknowledgement. -/
theorem authentication_check_spec (env : Env) (g : Globals)
    (s t : Session)
    (hsst : s.state = RState.expectAuthentication)
    (hsb0 : s.inputBlock.getD 0 0 = ID_AUTHENTICATION)
    (hsne : generateAuthentication env g.secretHashed s.clientChallenge
      s.serverChallenge [67, 65] AUTHENTICATION_SIZE ≠
      (s.inputBlock.drop 1).take AUTHENTICATION_SIZE)
    (htst : t.state = RState.expectAuthentication)
    (htb0 : t.inputBlock.getD 0 0 = ID_AUTHENTICATION)
    (hteq : generateAuthentication env g.secretHashed t.clientChallenge
      t.serverChallenge [67, 65] AUTHENTICATION_SIZE =
      (t.inputBlock.drop 1).take AUTHENTICATION_SIZE) :
    (∀ key cc sc code n,
      generateAuthentication env key cc sc code n =
        (specHmacSha256 env.sha256 key (cc ++ sc ++ code)).take n) ∧
    ((handleInputBlock env g s).2.state = RState.sendAuthError ∧
    serverSentEvents env g 2 (handleInputBlock env g s).2 =
      [Event.sentBlock (ID_AUTH_ERROR :: List.replicate 15 0),
        Event.closedConn] ∧
    (handleInputBlock env g t).2.state = RState.sendAuthentication ∧
    (generateOutputBlock env g (handleInputBlock env g t).2).1 = true ∧
    (generateOutputBlock env g (handleInputBlock env g t).2).2.outputBlock =
      ID_RESPONSE :: generateAuthentication env g.secretHashed
        t.clientChallenge t.serverChallenge [83, 65] AUTHENTICATION_SIZE ∧
    (generateOutputBlock env g (handleInputBlock env g t).2).2.state =
      RState.expectAcknowledge) := by
  have hsb0' : s.inputBlock[0]?.getD 0 = 73 := by
    simpa [List.getD_eq_getElem?_getD, ID_AUTHENTICATION] using hsb0
  have htb0' : t.inputBlock[0]?.getD 0 = 73 := by
    simpa [List.getD_eq_getElem?_getD, ID_AUTHENTICATION] using htb0
  have hsne' : generateAuthentication env g.secretHashed s.clientChallenge
      s.serverChallenge [67, 65] AUTHENTICATION_SIZE ≠
      List.take AUTHENTICATION_SIZE s.inputBlock.tail := by
    simpa [List.drop_one] using hsne
  have hteq' : generateAuthentication env g.secretHashed t.clientChallenge
      t.serverChallenge [67, 65] AUTHENTICATION_SIZE =
      List.take AUTHENTICATION_SIZE t.inputBlock.tail := by
    simpa [List.drop_one] using hteq
  have hsIn : handleInputBlock env g s =
      (true, { s with state := RState.sendAuthError }) := by
    simp [handleInputBlock, hsst, hsb0', hsne', ID_AUTHENTICATION]
  have htIn : handleInputBlock env g t =
      (true, { t with state := RState.sendAuthentication }) := by
    simp [handleInputBlock, htst, htb0', hteq', ID_AUTHENTICATION]
  refine ⟨fun key cc sc code n =>
    generateAuthentication_eq_hmac env key cc sc code n, ?_, ?_, ?_, ?_, ?_, ?_⟩
  · rw [hsIn]
  · rw [hsIn]
    simp [serverSentEvents, sendWhileAble, generateOutputBlock,
      generateClearHeaderForError]
  · rw [htIn]
  · rw [htIn]
    simp [generateOutputBlock]
  · rw [htIn]
    simp [generateOutputBlock]
  · rw [htIn]
    simp [generateOutputBlock]

theorem authentication_check_spec_witness :
    (wS5a.state = RState.expectAuthentication ∧
      wS5a.inputBlock.getD 0 0 = ID_AUTHENTICATION ∧
      generateAuthentication wEnv wG.secretHashed wS5a.clientChallenge
        wS5a.serverChallenge [67, 65] AUTHENTICATION_SIZE ≠
        (wS5a.inputBlock.drop 1).take AUTHENTICATION_SIZE ∧
      wS5b.state = RState.expectAuthentication ∧
      wS5b.inputBlock.getD 0 0 = ID_AUTHENTICATION ∧
      generateAuthentication wEnv wG.secretHashed wS5b.clientChallenge
        wS5b.serverChallenge [67, 65] AUTHENTICATION_SIZE =
        (wS5b.inputBlock.drop 1).take AUTHENTICATION_SIZE) ∧
    ((handleInputBlock wEnv wG wS5a).2.state = RState.sendAuthError ∧
    serverSentEvents wEnv wG 2 (handleInputBlock wEnv wG wS5a).2 =
      [Event.sentBlock (ID_AUTH_ERROR :: List.replicate 15 0),
        Event.closedConn] ∧
    (handleInputBlock wEnv wG wS5b).2.state = RState.sendAuthentication ∧
    (generateOutputBlock wEnv wG (handleInputBlock wEnv wG wS5b).2).1 =
      true ∧
    (generateOutputBlock wEnv wG
        (handleInputBlock wEnv wG wS5b).2).2.outputBlock =
      ID_RESPONSE :: generateAuthentication wEnv wG.secretHashed
        wS5b.clientChallenge wS5b.serverChallenge [83, 65]
        AUTHENTICATION_SIZE ∧
    (generateOutputBlock wEnv wG
        (handleInputBlock wEnv wG wS5b).2).2.state =
      RState.expectAcknowledge) :=
  ⟨⟨rfl, rfl, by decide, rfl, rfl, by decide⟩,
    (authentication_check_spec wEnv wG wS5a wS5b rfl rfl (by decide)
      rfl rfl (by decide)).2⟩

theorem emitsEncErrorHeader_intro (env : Env) (g : Globals) (s' : Session)
    (errId : Nat)
    (h : generateOutputBlock env g s' =
      (true, generateEncHeaderForError env s' errId)) :
    emitsEncErrorHeader env g s' errId := by
  unfold emitsEncErrorHeader
  rw [h]
  refine ⟨rfl, ?_, ?_, ?_, ?_⟩ <;>
    simp [generateEncHeaderForError, encryptBlock]

/-- C6: an unregistered `msg_type` makes the session emit an encrypted
`BAD_HANDLER_ERROR` header with `data_size = 0` and disconnect; a
registered handler with `data_size > MAX_DATA_SIZE` gives an encrypted
`BAD_PARAM_ERROR` header; a mismatched truncated data hash at dispatch
gives an encrypted `CORRUPT_ERROR` header. -/
theorem enc_request_validation_spec (env : Env) (g : Globals)
    (s t u : Session)
    (hs : handlerRegistered g.table (handlerIdOf (parseHeader (zipXor
      s.decryptIv (env.aesDecRaw s.decKey s.inputBlock))).msgType) = false)
    (htr : handlerRegistered g.table (handlerIdOf (parseHeader (zipXor
      t.decryptIv (env.aesDecRaw t.decKey t.inputBlock))).msgType) = true)
    (hts : MAX_DATA_SIZE < (parseHeader (zipXor t.decryptIv
      (env.aesDecRaw t.decKey t.inputBlock))).dataSize)
    (hu : encDataHash env u.requestHeader u.data ≠
      u.requestHeader.dataHash) :
    ((handleEncRequestStart env g s).state = RState.sendBadHandlerError ∧
      emitsEncErrorHeader env g (handleEncRequestStart env g s)
        ID_BAD_HANDLER_ERROR) ∧
    ((handleEncRequestStart env g t).state = RState.sendBadParamError ∧
      emitsEncErrorHeader env g (handleEncRequestStart env g t)
        ID_BAD_PARAM_ERROR) ∧
    ((handleEncRequestEnd env g u).state = RState.sendCorruptError ∧
      emitsEncErrorHeader env g (handleEncRequestEnd env g u)
        ID_CORRUPT_ERROR) := by
  have hsState : (handleEncRequestStart env g s).state =
      RState.sendBadHandlerError := by
    simp [handleEncRequestStart, decryptBlock, hs]
  have htState : (handleEncRequestStart env g t).state =
      RState.sendBadParamError := by
    simp [handleEncRequestStart, decryptBlock, htr, hts]
  have huState : (handleEncRequestEnd env g u).state =
      RState.sendCorruptError := by
    simp [handleEncRequestEnd, hu]
  refine ⟨⟨hsState, ?_⟩, ⟨htState, ?_⟩, ⟨huState, ?_⟩⟩
  · exact emitsEncErrorHeader_intro env g _ _ (by
      simp [generateOutputBlock, hsState])
  · exact emitsEncErrorHeader_intro env g _ _ (by
      simp [generateOutputBlock, htState])
  · exact emitsEncErrorHeader_intro env g _ _ (by
      simp [generateOutputBlock, huState])

theorem enc_request_validation_spec_witness :
    (handlerRegistered wG.table (handlerIdOf (parseHeader (zipXor
      wS6a.decryptIv (wEnv.aesDecRaw wS6a.decKey wS6a.inputBlock))).msgType)
      = false ∧
    handlerRegistered wG.table (handlerIdOf (parseHeader (zipXor
      wS6b.decryptIv (wEnv.aesDecRaw wS6b.decKey wS6b.inputBlock))).msgType)
      = true ∧
    MAX_DATA_SIZE < (parseHeader (zipXor wS6b.decryptIv
      (wEnv.aesDecRaw wS6b.decKey wS6b.inputBlock))).dataSize ∧
    encDataHash wEnv wS6u.requestHeader wS6u.data ≠
      wS6u.requestHeader.dataHash) ∧
    (((handleEncRequestStart wEnv wG wS6a).state =
        RState.sendBadHandlerError ∧
      emitsEncErrorHeader wEnv wG (handleEncRequestStart wEnv wG wS6a)
        ID_BAD_HANDLER_ERROR) ∧
    ((handleEncRequestStart wEnv wG wS6b).state =
        RState.sendBadParamError ∧
      emitsEncErrorHeader wEnv wG (handleEncRequestStart wEnv wG wS6b)
        ID_BAD_PARAM_ERROR) ∧
    ((handleEncRequestEnd wEnv wG wS6u).state = RState.sendCorruptError ∧
      emitsEncErrorHeader wEnv wG (handleEncRequestEnd wEnv wG wS6u)
        ID_CORRUPT_ERROR)) :=
  ⟨⟨by decide, by decide, by decide, by decide⟩,
    enc_request_validation_spec wEnv wG wS6a wS6b wS6u (by decide)
      (by decide) (by decide) (by decide)⟩

/-! ## C7: stage-2 ordering -/

/-- C7: with a stage-1 and stage-2 handler registered, the session emits a
reply header with `data_size = 0` and `parameter_or_result` set to the
stage-1 result; after that single block the connection is closed and only
then is the stage-2 handler invoked with the buffer and sizes produced by
stage-1 (the code closes the TCP connection before invoking stage-2, not
after); no further bytes are emitted after the reply header. -/
theorem stage2_ordering_spec (env : Env) (g : Globals) (s : Session)
    (f1 : Handler1)
    (hhash : encDataHash env s.requestHeader s.data =
      s.requestHeader.dataHash)
    (hlt : handlerIdOf s.requestHeader.msgType < NUM_HANDLERS)
    (hcb1 : (g.table (handlerIdOf s.requestHeader.msgType)).callback1 =
      some f1)
    (hcb2 : (g.table (handlerIdOf s.requestHeader.msgType)).callback2 =
      true) :
    (handleEncRequestEnd env g s).state =
      RState.sendEncReplyHeaderWithCallback2 ∧
    (handleEncRequestEnd env g s).replyHeader.dataSize = 0 ∧
    (handleEncRequestEnd env g s).replyHeader.paramOrResult =
      (f1 s.requestHeader.msgType s.data s.requestHeader.dataSize
        s.requestHeader.paramOrResult).2.2 ∧
    serverSentEvents env g 2 (handleEncRequestEnd env g s) =
      [Event.sentBlock (env.aesEncRaw s.encKey (zipXor s.encryptIv
        (serializeHeader16 (handleEncRequestEnd env g s).replyHeader))),
        Event.closedConn,
        Event.invoke2 s.requestHeader.msgType
          (f1 s.requestHeader.msgType s.data s.requestHeader.dataSize
            s.requestHeader.paramOrResult).1
          (if MAX_DATA_SIZE < (f1 s.requestHeader.msgType s.data
              s.requestHeader.dataSize s.requestHeader.paramOrResult).2.1
            then MAX_DATA_SIZE
            else (f1 s.requestHeader.msgType s.data
              s.requestHeader.dataSize s.requestHeader.paramOrResult).2.1)
          (f1 s.requestHeader.msgType s.data s.requestHeader.dataSize
            s.requestHeader.paramOrResult).2.2] := by
  have hreg : handlerRegistered g.table
      (handlerIdOf s.requestHeader.msgType) = true := by
    simp [handlerRegistered, hlt, hcb1]
  have hstate : (handleEncRequestEnd env g s).state =
      RState.sendEncReplyHeaderWithCallback2 := by
    simp [handleEncRequestEnd, hhash, hreg, hcb1, finishDispatch, hcb2]
  have hds : (handleEncRequestEnd env g s).replyHeader.dataSize = 0 := by
    simp [handleEncRequestEnd, hhash, hreg, hcb1, finishDispatch, hcb2]
  have hpr : (handleEncRequestEnd env g s).replyHeader.paramOrResult =
      (f1 s.requestHeader.msgType s.data s.requestHeader.dataSize
        s.requestHeader.paramOrResult).2.2 := by
    simp [handleEncRequestEnd, hhash, hreg, hcb1, finishDispatch, hcb2]
  have hkey : (handleEncRequestEnd env g s).encKey = s.encKey := by
    simp [handleEncRequestEnd, hhash, hreg, hcb1, finishDispatch, hcb2]
  have hiv : (handleEncRequestEnd env g s).encryptIv = s.encryptIv := by
    simp [handleEncRequestEnd, hhash, hreg, hcb1, finishDispatch, hcb2]
  have hdata : (handleEncRequestEnd env g s).data =
      (f1 s.requestHeader.msgType s.data s.requestHeader.dataSize
        s.requestHeader.paramOrResult).1 := by
    simp [handleEncRequestEnd, hhash, hreg, hcb1, finishDispatch, hcb2]
  have hmt : (handleEncRequestEnd env g s).requestHeader.msgType =
      s.requestHeader.msgType := by
    simp [handleEncRequestEnd, hhash, hreg, hcb1, finishDispatch, hcb2]
  have hqs : (handleEncRequestEnd env g s).requestHeader.dataSize =
      (if MAX_DATA_SIZE < (f1 s.requestHeader.msgType s.data
          s.requestHeader.dataSize s.requestHeader.paramOrResult).2.1
        then MAX_DATA_SIZE
        else (f1 s.requestHeader.msgType s.data s.requestHeader.dataSize
          s.requestHeader.paramOrResult).2.1) := by
    simp [handleEncRequestEnd, hhash, hreg, hcb1, finishDispatch, hcb2]
  have hqp : (handleEncRequestEnd env g s).requestHeader.paramOrResult =
      (f1 s.requestHeader.msgType s.data s.requestHeader.dataSize
        s.requestHeader.paramOrResult).2.2 := by
    simp [handleEncRequestEnd, hhash, hreg, hcb1, finishDispatch, hcb2]
  refine ⟨hstate, hds, hpr, ?_⟩
  simp [serverSentEvents, sendWhileAble, generateOutputBlock, hstate,
    encryptBlock, hkey, hiv, hdata, hmt, hqs, hqp, hlt, hcb2]

/-- C7 counterexample: on a concrete valid stage-2 request the server
sends the reply header, closes the connection, and only then invokes the
stage-2 handler; the event sequence claimed by the spec (invoke stage-2,
then close) does not occur. -/
theorem stage2_ordering_counterexample :
    serverSentEvents wEnv wG 2 (handleEncRequestEnd wEnv wG wS7) =
      [Event.sentBlock [0, 0, 0, 0, 7, 0, 0, 0, 76, 0, 0, 0, 0, 0, 0, 0],
        Event.closedConn, Event.invoke2 120 [] 3 7] ∧
    serverSentEvents wEnv wG 2 (handleEncRequestEnd wEnv wG wS7) ≠
      [Event.sentBlock [0, 0, 0, 0, 7, 0, 0, 0, 76, 0, 0, 0, 0, 0, 0, 0],
        Event.invoke2 120 [] 3 7, Event.closedConn] := by
  decide

theorem stage2_ordering_spec_witness :
    (encDataHash wEnv wS7.requestHeader wS7.data =
      wS7.requestHeader.dataHash ∧
    handlerIdOf wS7.requestHeader.msgType < NUM_HANDLERS ∧
    (wG.table (handlerIdOf wS7.requestHeader.msgType)).callback1 =
      some wHandler1 ∧
    (wG.table (handlerIdOf wS7.requestHeader.msgType)).callback2 =
      true) ∧
    ((handleEncRequestEnd wEnv wG wS7).state =
      RState.sendEncReplyHeaderWithCallback2 ∧
    (handleEncRequestEnd wEnv wG wS7).replyHeader.dataSize = 0 ∧
    (handleEncRequestEnd wEnv wG wS7).replyHeader.paramOrResult =
      (wHandler1 wS7.requestHeader.msgType wS7.data
        wS7.requestHeader.dataSize wS7.requestHeader.paramOrResult).2.2 ∧
    serverSentEvents wEnv wG 2 (handleEncRequestEnd wEnv wG wS7) =
      [Event.sentBlock (wEnv.aesEncRaw wS7.encKey (zipXor wS7.encryptIv
        (serializeHeader16 (handleEncRequestEnd wEnv wG
          wS7).replyHeader))),
        Event.closedConn,
        Event.invoke2 wS7.requestHeader.msgType
          (wHandler1 wS7.requestHeader.msgType wS7.data
            wS7.requestHeader.dataSize wS7.requestHeader.paramOrResult).1
          (if MAX_DATA_SIZE < (wHandler1 wS7.requestHeader.msgType
              wS7.data wS7.requestHeader.dataSize
              wS7.requestHeader.paramOrResult).2.1
            then MAX_DATA_SIZE
            else (wHandler1 wS7.requestHeader.msgType wS7.data
              wS7.requestHeader.dataSize
              wS7.requestHeader.paramOrResult).2.1)
          (wHandler1 wS7.requestHeader.msgType wS7.data
            wS7.requestHeader.dataSize
            wS7.requestHeader.paramOrResult).2.2]) :=
  ⟨⟨by decide, by decide, rfl, rfl⟩,
    stage2_ordering_spec wEnv wG wS7 wHandler1 (by decide) (by decide)
      rfl rfl⟩

/-! ## C10: pass-through for stage-2-only handlers -/

/-- C10: when a message type has a stage-2 handler but no stage-1 handler,
dispatch forwards the request unchanged: the data buffer is untouched, the
request header keeps its original `data_size` and `parameter_or_result`,
the reply header's `parameter_or_result` equals the request's, and the
stage-2 handler is invoked with the request's buffer, original data size
and original parameter. -/
theorem stage2_passthrough_spec (env : Env) (g : Globals) (s : Session)
    (hhash : encDataHash env s.requestHeader s.data =
      s.requestHeader.dataHash)
    (hlt : handlerIdOf s.requestHeader.msgType < NUM_HANDLERS)
    (hcb1 : (g.table (handlerIdOf s.requestHeader.msgType)).callback1 =
      none)
    (hcb2 : (g.table (handlerIdOf s.requestHeader.msgType)).callback2 =
      true) :
    (handleEncRequestEnd env g s).state =
      RState.sendEncReplyHeaderWithCallback2 ∧
    (handleEncRequestEnd env g s).data = s.data ∧
    (handleEncRequestEnd env g s).requestHeader.dataSize =
      s.requestHeader.dataSize ∧
    (handleEncRequestEnd env g s).requestHeader.paramOrResult =
      s.requestHeader.paramOrResult ∧
    (handleEncRequestEnd env g s).replyHeader.paramOrResult =
      s.requestHeader.paramOrResult ∧
    (handleEncRequestEnd env g s).replyHeader.dataSize = 0 ∧
    serverSentEvents env g 2 (handleEncRequestEnd env g s) =
      [Event.sentBlock (env.aesEncRaw s.encKey (zipXor s.encryptIv
        (serializeHeader16 (handleEncRequestEnd env g s).replyHeader))),
        Event.closedConn,
        Event.invoke2 s.requestHeader.msgType s.data
          s.requestHeader.dataSize s.requestHeader.paramOrResult] := by
  have hreg : handlerRegistered g.table
      (handlerIdOf s.requestHeader.msgType) = true := by
    simp [handlerRegistered, hlt, hcb2]
  have hstate : (handleEncRequestEnd env g s).state =
      RState.sendEncReplyHeaderWithCallback2 := by
    simp [handleEncRequestEnd, hhash, hreg, hcb1, finishDispatch, hcb2]
  have hdata : (handleEncRequestEnd env g s).data = s.data := by
    simp [handleEncRequestEnd, hhash, hreg, hcb1, finishDispatch, hcb2]
  have hqs : (handleEncRequestEnd env g s).requestHeader.dataSize =
      s.requestHeader.dataSize := by
    simp [handleEncRequestEnd, hhash, hreg, hcb1, finishDispatch, hcb2]
  have hqp : (handleEncRequestEnd env g s).requestHeader.paramOrResult =
      s.requestHeader.paramOrResult := by
    simp [handleEncRequestEnd, hhash, hreg, hcb1, finishDispatch, hcb2]
  have hpr : (handleEncRequestEnd env g s).replyHeader.paramOrResult =
      s.requestHeader.paramOrResult := by
    simp [handleEncRequestEnd, hhash, hreg, hcb1, finishDispatch, hcb2]
  have hds : (handleEncRequestEnd env g s).replyHeader.dataSize = 0 := by
    simp [handleEncRequestEnd, hhash, hreg, hcb1, finishDispatch, hcb2]
  have hkey : (handleEncRequestEnd env g s).encKey = s.encKey := by
    simp [handleEncRequestEnd, hhash, hreg, hcb1, finishDispatch, hcb2]
  have hiv : (handleEncRequestEnd env g s).encryptIv = s.encryptIv := by
    simp [handleEncRequestEnd, hhash, hreg, hcb1, finishDispatch, hcb2]
  have hmt : (handleEncRequestEnd env g s).requestHeader.msgType =
      s.requestHeader.msgType := by
    simp [handleEncRequestEnd, hhash, hreg, hcb1, finishDispatch, hcb2]
  refine ⟨hstate, hdata, hqs, hqp, hpr, hds, ?_⟩
  simp [serverSentEvents, sendWhileAble, generateOutputBlock, hstate,
    encryptBlock, hkey, hiv, hdata, hmt, hqs, hqp, hlt, hcb2]

theorem stage2_passthrough_spec_witness :
    (encDataHash wEnv wS10.requestHeader wS10.data =
      wS10.requestHeader.dataHash ∧
    handlerIdOf wS10.requestHeader.msgType < NUM_HANDLERS ∧
    (wG.table (handlerIdOf wS10.requestHeader.msgType)).callback1 =
      none ∧
    (wG.table (handlerIdOf wS10.requestHeader.msgType)).callback2 =
      true) ∧
    ((handleEncRequestEnd wEnv wG wS10).state =
      RState.sendEncReplyHeaderWithCallback2 ∧
    (handleEncRequestEnd wEnv wG wS10).data = wS10.data ∧
    (handleEncRequestEnd wEnv wG wS10).requestHeader.dataSize =
      wS10.requestHeader.dataSize ∧
    (handleEncRequestEnd wEnv wG wS10).requestHeader.paramOrResult =
      wS10.requestHeader.paramOrResult ∧
    (handleEncRequestEnd wEnv wG wS10).replyHeader.paramOrResult =
      wS10.requestHeader.paramOrResult ∧
    (handleEncRequestEnd wEnv wG wS10).replyHeader.dataSize = 0 ∧
    serverSentEvents wEnv wG 2 (handleEncRequestEnd wEnv wG wS10) =
      [Event.sentBlock (wEnv.aesEncRaw wS10.encKey (zipXor wS10.encryptIv
        (serializeHeader16 (handleEncRequestEnd wEnv wG
          wS10).replyHeader))),
        Event.closedConn,
        Event.invoke2 wS10.requestHeader.msgType wS10.data
          wS10.requestHeader.dataSize wS10.requestHeader.paramOrResult]) :=
  ⟨⟨by decide, by decide, rfl, rfl⟩,
    stage2_passthrough_spec wEnv wG wS10 (by decide) (by decide)
      rfl rfl⟩

theorem isSubstring_iff (needle haystack : List Nat) :
    isSubstring needle haystack = true ↔
      ∃ i, needle = (haystack.drop i).take needle.length := by
  constructor
  · intro h
    obtain ⟨i, _, hbeq⟩ := List.any_eq_true.mp h
    exact ⟨i, (beq_iff_eq.mp hbeq).symm⟩
  · rintro ⟨i, hi⟩
    rcases le_or_lt i haystack.length with hle | hgt
    · exact List.any_eq_true.mpr ⟨i, List.mem_range.mpr (by omega),
        beq_iff_eq.mpr hi.symm⟩
    · have hdrop : haystack.drop i = [] :=
        List.drop_of_length_le (by omega)
      have hnil : needle = [] := by
        rw [hi, hdrop, List.take_nil]
      refine List.any_eq_true.mpr ⟨0, List.mem_range.mpr (by omega), ?_⟩
      rw [hnil]
      rfl

theorem takeWhile_append_all (p : Nat → Bool) (l1 l2 : List Nat)
    (h : ∀ b ∈ l1, p b = true) :
    (l1 ++ l2).takeWhile p = l1 ++ l2.takeWhile p := by
  induction l1 with
  | nil => simp
  | cons a t ih =>
    have ha : p a = true := h a (by simp)
    simp only [List.cons_append, List.takeWhile_cons, ha, if_true]
    rw [ih (fun b hb => h b (List.mem_cons_of_mem a hb))]

theorem takeWhile_nonzero_self (P : List Nat) (hnz : ∀ b ∈ P, b ≠ 0) :
    P.takeWhile (fun b => !(b == 0)) = P := by
  have := takeWhile_append_all (fun b => !(b == 0)) P []
    (fun b hb => by simp [hnz b hb])
  simpa using this

theorem takeWhile_nonzero_append_zero (P tail : List Nat)
    (hnz : ∀ b ∈ P, b ≠ 0) :
    (P ++ 0 :: tail).takeWhile (fun b => !(b == 0)) = P := by
  rw [takeWhile_append_all (fun b => !(b == 0)) P (0 :: tail)
    (fun b hb => by simp [hnz b hb])]
  simp [List.takeWhile_cons]

theorem takeWhile_take16 (pfx T : List Nat) (hpl : pfx.length ≤ 16)
    (hnz : ∀ b ∈ pfx, b ≠ 0) :
    ((pfx ++ 0 :: T).take 16).takeWhile (fun b => !(b == 0)) = pfx := by
  rcases Nat.lt_or_ge pfx.length 16 with hlt | hge
  · rw [List.take_append_eq_append_take,
      List.take_of_length_le (by omega),
      show 16 - pfx.length = (15 - pfx.length) + 1 from by omega]
    exact takeWhile_nonzero_append_zero pfx _ hnz
  · have h16 : pfx.length = 16 := Nat.le_antisymm hpl hge
    rw [List.take_append_eq_append_take,
      List.take_of_length_le (by omega), h16]
    simp only [Nat.sub_self, List.take_zero, List.append_nil]
    exact takeWhile_nonzero_self pfx hnz

theorem responder_query_eq (pfx rest : List Nat) (hpl : pfx.length ≤ 16)
    (hnz : ∀ b ∈ pfx, b ≠ 0) :
    ((((RESPONDER_REQUEST_MAGIC ++ (pfx ++ 0 :: rest)).take 21 ++
      List.replicate
        (21 - (RESPONDER_REQUEST_MAGIC ++ (pfx ++ 0 :: rest)).length)
        0).drop 4).take 16).takeWhile (fun b => !(b == 0)) = pfx := by
  have htop : ∀ Y : List Nat,
      (RESPONDER_REQUEST_MAGIC ++ Y).take 21 =
        RESPONDER_REQUEST_MAGIC ++ Y.take 17 := fun Y => rfl
  have hdropMagic : ∀ X : List Nat,
      (RESPONDER_REQUEST_MAGIC ++ X).drop 4 = X := fun X => rfl
  have ht17 : (pfx ++ 0 :: rest).take 17 =
      pfx ++ 0 :: rest.take (16 - pfx.length) := by
    rw [List.take_append_eq_append_take,
      List.take_of_length_le (by omega),
      show 17 - pfx.length = (16 - pfx.length) + 1 from by omega]
    rfl
  rw [htop, List.append_assoc, hdropMagic, ht17, List.append_assoc,
    List.cons_append]
  exact takeWhile_take16 pfx _ hpl hnz

/-- C9: a datagram starting with the 4-byte magic `"PWS?"` whose
NUL-terminated query (at most 16 bytes) is a contiguous substring of the
16-character board id gets the reply `"PWS:"` followed by the full board
id and a NUL; a matching-magic datagram whose query is not a substring,
or a datagram with the wrong magic, gets no reply. -/
theorem responder_spec (boardId pfx rest payload2 : List Nat)
    (hlen : boardId.length = 16) (hpl : pfx.length ≤ 16)
    (hnz : ∀ b ∈ pfx, b ≠ 0)
    (h4 : 4 ≤ payload2.length)
    (hm : payload2.take 4 ≠ RESPONDER_REQUEST_MAGIC) :
    ((∃ i, pfx = (boardId.drop i).take pfx.length) →
      responderRecv boardId
        (RESPONDER_REQUEST_MAGIC ++ (pfx ++ 0 :: rest)) =
        some (RESPONDER_REPLY_MAGIC ++ boardId ++ [0])) ∧
    ((¬ ∃ i, pfx = (boardId.drop i).take pfx.length) →
      responderRecv boardId
        (RESPONDER_REQUEST_MAGIC ++ (pfx ++ 0 :: rest)) = none) ∧
    responderRecv boardId payload2 = none := by
  have htop : ∀ Y : List Nat,
      (RESPONDER_REQUEST_MAGIC ++ Y).take 21 =
        RESPONDER_REQUEST_MAGIC ++ Y.take 17 := fun Y => rfl
  have htake4 : ∀ X : List Nat,
      (RESPONDER_REQUEST_MAGIC ++ X).take 4 = RESPONDER_REQUEST_MAGIC :=
    fun X => rfl
  have hm4 : ((RESPONDER_REQUEST_MAGIC ++ (pfx ++ 0 :: rest)).take 21 ++
      List.replicate
        (21 - (RESPONDER_REQUEST_MAGIC ++ (pfx ++ 0 :: rest)).length)
        0).take 4 = RESPONDER_REQUEST_MAGIC := by
    rw [htop, List.append_assoc]
    exact htake4 _
  have hbid : boardId.take 16 = boardId :=
    List.take_of_length_le (by omega)
  refine ⟨?_, ?_, ?_⟩
  · intro hex
    have hsub : isSubstring pfx boardId = true :=
      (isSubstring_iff pfx boardId).mpr hex
    simp only [responderRecv]
    rw [if_neg (by rw [hm4]; exact fun hc => hc rfl),
      responder_query_eq pfx rest hpl hnz, hsub, if_pos rfl, hbid]
  · intro hex
    have hsub : isSubstring pfx boardId = false := by
      rcases hb : isSubstring pfx boardId
      · rfl
      · exact absurd ((isSubstring_iff pfx boardId).mp hb) hex
    simp only [responderRecv]
    rw [if_neg (by rw [hm4]; exact fun hc => hc rfl),
      responder_query_eq pfx rest hpl hnz, hsub]
    rfl
  · have hm4b : (payload2.take 21 ++
        List.replicate (21 - payload2.length) 0).take 4 =
        payload2.take 4 := by
      rw [List.take_append_eq_append_take]
      have hz : 4 - (payload2.take 21).length = 0 := by
        simp only [List.length_take]
        omega
      rw [hz, List.take_take]
      simp
    simp only [responderRecv]
    rw [if_pos (by rw [hm4b]; exact hm)]

theorem responder_spec_witness :
    (wBoard.length = 16 ∧ wPfx.length ≤ 16 ∧ (∀ b ∈ wPfx, b ≠ 0) ∧
      4 ≤ wPayload2.length ∧
      wPayload2.take 4 ≠ RESPONDER_REQUEST_MAGIC) ∧
    (responderRecv wBoard
        (RESPONDER_REQUEST_MAGIC ++ (wPfx ++ 0 :: [])) =
      some (RESPONDER_REPLY_MAGIC ++ wBoard ++ [0]) ∧
    responderRecv wBoard wPayload2 = none) :=
  ⟨⟨by decide, by decide, by decide, by decide, by decide⟩,
    ⟨(responder_spec wBoard wPfx [] wPayload2 (by decide) (by decide)
        (by decide) (by decide) (by decide)).1 ⟨4, by decide⟩,
      (responder_spec wBoard wPfx [] wPayload2 (by decide) (by decide)
        (by decide) (by decide) (by decide)).2.2⟩⟩

theorem selectFound_spec (l : List SlotStatus) (i : Nat)
    (h : selectFound l = some i) :
    l[i]? = some SlotStatus.found ∧
      ∀ j, j < i → l[j]? ≠ some SlotStatus.found := by
  induction l generalizing i with
  | nil => simp [selectFound] at h
  | cons st rest ih =>
    by_cases hst : st = SlotStatus.found
    · simp only [selectFound, hst, if_true, Option.some.injEq] at h
      subst h
      exact ⟨by simp [hst], fun j hj => by omega⟩
    · simp only [selectFound, hst, if_false, Option.map_eq_some'] at h
      obtain ⟨i0, hi0, hi⟩ := h
      subst hi
      obtain ⟨hf, hmin⟩ := ih i0 hi0
      refine ⟨by simpa using hf, ?_⟩
      intro j hj
      cases j with
      | zero => simpa using hst
      | succ j0 =>
        have := hmin j0 (by omega)
        simpa using this

/-- Modelled from the spec: C8: on scan completion the Connection Manager
selects the smallest `FOUND` slot, marks it `ATTEMPT` and starts
connecting; a failed join moves the selected slot's status away from
`FOUND` (to `FAILED`, `BADAUTH` or `TIMEOUT`), so a later selection picks
the smallest remaining `FOUND` slot and never that one; once no `FOUND`
slot remains, the manager returns to `TRY_TO_CONNECT` with
`selected_slot = 0`. -/
theorem slot_selection_spec (w w2 : WifiState) (i : Nat)
    (outcome : SlotStatus)
    (hsel : selectFound w.slotStatus = some i)
    (hout : outcome = SlotStatus.failed ∨ outcome = SlotStatus.badauth ∨
      outcome = SlotStatus.timeout)
    (hnone : selectFound w2.slotStatus = none) :
    ((scanDoneStep w).cstate = CMState.connecting ∧
      (scanDoneStep w).selectedSlot = i ∧
      (scanDoneStep w).slotStatus[i]? = some SlotStatus.attempt ∧
      w.slotStatus[i]? = some SlotStatus.found ∧
      (∀ j, j < i → w.slotStatus[j]? ≠ some SlotStatus.found)) ∧
    ((joinFailStep w outcome).cstate = CMState.scanning ∧
      (joinFailStep w outcome).slotStatus[w.selectedSlot]? ≠
        some SlotStatus.found ∧
      (∀ k, selectFound (joinFailStep w outcome).slotStatus = some k →
        k ≠ w.selectedSlot ∧
        (joinFailStep w outcome).slotStatus[k]? =
          some SlotStatus.found ∧
        ∀ j, j < k → (joinFailStep w outcome).slotStatus[j]? ≠
          some SlotStatus.found)) ∧
    ((scanDoneStep w2).cstate = CMState.tryToConnect ∧
      (scanDoneStep w2).selectedSlot = 0 ∧
      (scanDoneStep w2).slotStatus = w2.slotStatus) := by
  obtain ⟨hf, hmin⟩ := selectFound_spec w.slotStatus i hsel
  have hlt : i < w.slotStatus.length := (List.getElem?_eq_some.mp hf).1
  have houtne : outcome ≠ SlotStatus.found := by
    rcases hout with h | h | h <;> subst h <;> simp
  have hsetsel : (joinFailStep w outcome).slotStatus[w.selectedSlot]? ≠
      some SlotStatus.found := by
    simp only [joinFailStep]
    intro hc
    rw [List.getElem?_set_self'] at hc
    rcases hq : w.slotStatus[w.selectedSlot]? with _ | x
    · rw [hq] at hc
      simp at hc
    · rw [hq] at hc
      exact houtne (by simpa using hc)
  refine ⟨⟨?_, ?_, ?_, hf, hmin⟩, ⟨?_, hsetsel, ?_⟩, ⟨?_, ?_, ?_⟩⟩
  · simp [scanDoneStep, hsel]
  · simp [scanDoneStep, hsel]
  · simp only [scanDoneStep, hsel]
    rw [List.getElem?_set_self', hf]
    rfl
  · simp [joinFailStep]
  · intro k hk
    obtain ⟨hkf, hkmin⟩ := selectFound_spec _ k hk
    refine ⟨?_, hkf, hkmin⟩
    intro heq
    rw [heq] at hkf
    exact hsetsel hkf
  · simp [scanDoneStep, hnone]
  · simp [scanDoneStep, hnone]
  · simp [scanDoneStep, hnone]

theorem slot_selection_spec_witness :
    (selectFound wW.slotStatus = some 1 ∧
      (SlotStatus.failed = SlotStatus.failed ∨
        SlotStatus.failed = SlotStatus.badauth ∨
        SlotStatus.failed = SlotStatus.timeout) ∧
      selectFound wW2.slotStatus = none) ∧
    (((scanDoneStep wW).cstate = CMState.connecting ∧
      (scanDoneStep wW).selectedSlot = 1 ∧
      (scanDoneStep wW).slotStatus[1]? = some SlotStatus.attempt ∧
      wW.slotStatus[1]? = some SlotStatus.found ∧
      (∀ j, j < 1 → wW.slotStatus[j]? ≠ some SlotStatus.found)) ∧
    ((joinFailStep wW SlotStatus.failed).cstate = CMState.scanning ∧
      (joinFailStep wW SlotStatus.failed).slotStatus[wW.selectedSlot]? ≠
        some SlotStatus.found ∧
      (∀ k, selectFound
          (joinFailStep wW SlotStatus.failed).slotStatus = some k →
        k ≠ wW.selectedSlot ∧
        (joinFailStep wW SlotStatus.failed).slotStatus[k]? =
          some SlotStatus.found ∧
        ∀ j, j < k →
          (joinFailStep wW SlotStatus.failed).slotStatus[j]? ≠
            some SlotStatus.found)) ∧
    ((scanDoneStep wW2).cstate = CMState.tryToConnect ∧
      (scanDoneStep wW2).selectedSlot = 0 ∧
      (scanDoneStep wW2).slotStatus = wW2.slotStatus)) :=
  ⟨⟨by decide, Or.inl rfl, by decide⟩,
    slot_selection_spec wW wW2 1 SlotStatus.failed (by decide)
      (Or.inl rfl) (by decide)⟩

end PicoWifiSettings
